import Mathlib

/-!
# Shallow embedding of the `grow` plant-monitor analytics core

This file embeds, in Lean 4, the Offline Telemetry Cache (`src/data_cache.c`
and the drain logic of `sensor_work_handler` in `src/main.c`), the
Time-Series History Store and Health Classifier Pipeline
(`src/common/ml_analysis.c`), the status-string synthesis
(`src/common/plant_analysis.c`), and the Water-Usage Predictor
(`src/common/water_analysis.c`), and proves or refutes the frozen claims
about them.

Modelling conventions:
* C `float` is embedded as `ℚ` (exact arithmetic; every constant exercised by
  the claims is exactly representable).
* C `int64_t` timestamps are `ℤ`; C `int` indices/counters are `ℕ` where the
  source keeps them nonnegative, with the nonnegativity invariant proved
  where a claim asks for it.
* Fixed C arrays are total functions `ℕ → _`; the source only ever indexes
  them below their capacity, which the embedded index arithmetic preserves.
* Fixed-size C string buffers filled via `strncpy(dst, src, cap-1)` are
  embedded as Lean strings truncated to `cap - 1` characters.
* External capabilities (the Firebase upload, the TFLite inference) are
  parameters of the embedded functions: an upload sink is a function giving
  each attempt's outcome, inference output is the probability triple.
* `k_uptime_get() / 1000` is passed in as an explicit `now : ℤ` parameter.
* `sqrtf` is modelled by `Rat.sqrt`; the only claim-relevant inputs are `0`
  (where both are exactly `0`) and nonnegative values (where both are
  nonnegative).
-/

set_option allowUnsafeReducibility true

set_option maxRecDepth 8000

set_option maxHeartbeats 1000000

attribute [local semireducible] Rat.add Rat.sub Rat.mul Rat.div Rat.neg Rat.inv

namespace Grow

/-! ## Offline telemetry cache (`src/data_cache.c`) -/

/-- `MAX_CACHED_ENTRIES` from `data_cache.h`. -/
def MAX_CACHED_ENTRIES : ℕ := 48

/-- `struct cached_sensor_reading` from `data_cache.h`.  The two 32-byte char
buffers are embedded as strings (truncated to 31 characters on write). -/
structure CachedSensorReading where
  soil_moisture : ℚ
  light_level : ℚ
  temperature : ℚ
  humidity : ℚ
  air_movement : ℚ
  timestamp : ℤ
  health_status : ℤ
  env_mismatch : String
  plant_status : String
  valid : Bool
  deriving DecidableEq, Repr

/-- The all-zero entry produced by `memset(cache, 0, ...)`. -/
def zeroReading : CachedSensorReading :=
  { soil_moisture := 0, light_level := 0, temperature := 0, humidity := 0
    air_movement := 0, timestamp := 0, health_status := 0
    env_mismatch := "", plant_status := "", valid := false }

/-- The module state of `data_cache.c`: the `cache` array plus the
`cache_head` write cursor and `cache_count` entry count. -/
structure DataCache where
  cache : ℕ → CachedSensorReading
  cache_head : ℕ
  cache_count : ℕ

/-- `data_cache_init` / `data_cache_clear`: zero the array and both counters. -/
def data_cache_init : DataCache :=
  { cache := fun _ => zeroReading, cache_head := 0, cache_count := 0 }

/-- `strncpy(dst, src, n)` followed by `dst[n] = 0`: the stored C string is
the first `n` characters of `src`. -/
def strncpyTrunc (s : String) (n : ℕ) : String :=
  ⟨s.data.take n⟩

/-- The nine parameters of `data_cache_add_reading`. -/
structure CacheAddArgs where
  soil_moisture : ℚ
  light_level : ℚ
  temperature : ℚ
  humidity : ℚ
  air_movement : ℚ
  timestamp : ℤ
  health_status : ℤ
  env_mismatch : String
  plant_status : String
  deriving DecidableEq, Inhabited, Repr

/-- The entry written by `data_cache_add_reading` (its field assignments and
the two truncating `strncpy` calls, with `valid = true`). -/
def mkCachedReading (a : CacheAddArgs) : CachedSensorReading :=
  { soil_moisture := a.soil_moisture, light_level := a.light_level
    temperature := a.temperature, humidity := a.humidity
    air_movement := a.air_movement, timestamp := a.timestamp
    health_status := a.health_status
    env_mismatch := strncpyTrunc a.env_mismatch 31
    plant_status := strncpyTrunc a.plant_status 31
    valid := true }

/-- `data_cache_add_reading`: write the entry at `cache_head`, advance the
head modulo `MAX_CACHED_ENTRIES`, and bump the count while below capacity.
The second component is the C return value (the function always returns 0). -/
def data_cache_add_reading (st : DataCache) (a : CacheAddArgs) :
    DataCache × ℤ :=
  ({ cache := Function.update st.cache st.cache_head (mkCachedReading a)
     cache_head := (st.cache_head + 1) % MAX_CACHED_ENTRIES
     cache_count :=
       if st.cache_count < MAX_CACHED_ENTRIES then st.cache_count + 1
       else st.cache_count }, 0)

/-- `data_cache_count`. -/
def data_cache_count (st : DataCache) : ℕ := st.cache_count

/-- `data_cache_get_reading`.  The C `index < 0` guard is vacuous for the
`ℕ`-valued index; `-EINVAL` is `-22` and `-ENOENT` is `-2`. -/
def data_cache_get_reading (st : DataCache) (index : ℕ) :
    Except ℤ CachedSensorReading :=
  if index ≥ st.cache_count then .error (-22)
  else
    let actual_index :=
      if st.cache_count < MAX_CACHED_ENTRIES then index
      else (st.cache_head + index) % MAX_CACHED_ENTRIES
    if (st.cache (actual_index)).valid = false then .error (-2)
    else .ok (st.cache actual_index)

/-- Apply `data_cache_add_reading` for each argument tuple of a list,
oldest first, starting from the freshly initialized cache. -/
def applyAdds (l : List CacheAddArgs) : DataCache :=
  l.foldl (fun st e => (data_cache_add_reading st e).1) data_cache_init

theorem applyAdds_append (l : List CacheAddArgs) (e : CacheAddArgs) :
    applyAdds (l ++ [e]) = (data_cache_add_reading (applyAdds l) e).1 := by
  simp [applyAdds, List.foldl_append]

theorem applyAdds_head (l : List CacheAddArgs) :
    (applyAdds l).cache_head = l.length % 48 := by
  induction l using List.reverseRecOn with
  | nil => simp [applyAdds, data_cache_init]
  | append_singleton l e ih =>
    rw [applyAdds_append]
    simp only [data_cache_add_reading, MAX_CACHED_ENTRIES, List.length_append,
      List.length_singleton, ih]
    omega

theorem applyAdds_count (l : List CacheAddArgs) :
    (applyAdds l).cache_count = min l.length 48 := by
  induction l using List.reverseRecOn with
  | nil => simp [applyAdds, data_cache_init]
  | append_singleton l e ih =>
    rw [applyAdds_append]
    simp only [data_cache_add_reading, MAX_CACHED_ENTRIES, List.length_append,
      List.length_singleton, ih]
    split <;> omega

/-- Ring-buffer slot invariant for the cache: the slot holding the `i`-th
logically oldest retained entry after the inserts `l` is
`(length % 48 + (48 - min length 48) + i) % 48`. -/
theorem applyAdds_slot (l : List CacheAddArgs) :
    ∀ i < min l.length 48,
      (applyAdds l).cache ((l.length % 48 + (48 - min l.length 48) + i) % 48)
        = mkCachedReading (l.getD (l.length - min l.length 48 + i) default) := by
  induction l using List.reverseRecOn with
  | nil => simp
  | append_singleton l e ih =>
    intro i hi
    rw [applyAdds_append]
    simp only [data_cache_add_reading, applyAdds_head]
    have hL : (l ++ [e]).length = l.length + 1 := by simp
    rw [hL] at hi ⊢
    by_cases hlast : i = min (l.length + 1) 48 - 1
    · -- the newly written slot, holding `e`
      subst hlast
      have hpt : ((l.length + 1) % 48 +
          (48 - min (l.length + 1) 48) + (min (l.length + 1) 48 - 1)) % 48
          = l.length % 48 := by omega
      rw [hpt, Function.update_same]
      rw [List.getD_append_right _ _ _ _ (by omega)]
      simp only [List.length_singleton, List.getD]
      have : l.length + 1 - min (l.length + 1) 48 +
          (min (l.length + 1) 48 - 1) - l.length = 0 := by omega
      simp [this]
    · -- an older slot, untouched by this insert
      have hine : ((l.length + 1) % 48 +
          (48 - min (l.length + 1) 48) + i) % 48 ≠ l.length % 48 := by omega
      rw [Function.update_noteq hine]
      have hsh : ((l.length + 1) % 48 + (48 - min (l.length + 1) 48) + i) % 48
          = (l.length % 48 + (48 - min l.length 48) +
              (i + 1 - (min (l.length + 1) 48 - min l.length 48))) % 48 := by
        omega
      rw [hsh]
      have harg : i + 1 - (min (l.length + 1) 48 - min l.length 48)
          < min l.length 48 := by omega
      rw [ih _ harg]
      rw [List.getD_append _ _ _ _ (by omega)]
      congr 2
      omega

/-- `data_cache_get_reading` on a cache built by `applyAdds` returns the
`(count - 1 - i)`-th most recent insert, i.e. logical oldest-first access. -/
theorem data_cache_get_reading_applyAdds (l : List CacheAddArgs) (i : ℕ)
    (hi : i < min l.length 48) :
    data_cache_get_reading (applyAdds l) i =
      .ok (mkCachedReading (l.getD (l.length - min l.length 48 + i) default)) := by
  have hcount := applyAdds_count l
  have hhead := applyAdds_head l
  have hnotge : ¬ i ≥ (applyAdds l).cache_count := by omega
  have hactual :
      (if (applyAdds l).cache_count < MAX_CACHED_ENTRIES then i
       else ((applyAdds l).cache_head + i) % MAX_CACHED_ENTRIES)
      = (l.length % 48 + (48 - min l.length 48) + i) % 48 := by
    rw [hcount, hhead]
    simp only [MAX_CACHED_ENTRIES]
    split <;> omega
  simp only [data_cache_get_reading]
  rw [if_neg hnotge, hactual, applyAdds_slot l i hi]
  simp [mkCachedReading]

/-! ## Cache drain (`sensor_work_handler`, `src/main.c`, lines 226-268) -/

/-- The cached-upload loop of `sensor_work_handler`: starting at logical
index `i` with `rem` of the `cache_count` loop iterations left, fetch each
cached entry and pass it to the external upload capability `sink`
(`firebase_send_sensor_data`); the first failed upload clears `all_sent` and
breaks out of the loop; a failed fetch is skipped.  Returns the final
`all_sent` flag together with the `(index, entry)` upload attempts actually
made, in order. -/
def drainGo (st : DataCache) (sink : ℕ → CachedSensorReading → Bool) :
    ℕ → ℕ → Bool × List (ℕ × CachedSensorReading)
  | 0, _ => (true, [])
  | rem + 1, i =>
    match data_cache_get_reading st i with
    | .ok e =>
        if sink i e then
          let r := drainGo st sink rem (i + 1)
          (r.1, (i, e) :: r.2)
        else (false, [(i, e)])
    | .error _ => drainGo st sink rem (i + 1)

/-- The cache-state effect of the connected branch of `sensor_work_handler`:
when cached readings exist they are drained oldest-first, and the cache is
cleared exactly when `all_sent` remained true.  The current live reading is
uploaded *after* this, so its outcome `liveOk` does not influence the cache
state (the parameter is deliberately unused, mirroring the source). -/
def sensor_work_drain (st : DataCache)
    (sink : ℕ → CachedSensorReading → Bool) (liveOk : Bool) : DataCache :=
  if 0 < st.cache_count then
    if (drainGo st sink st.cache_count 0).1 then data_cache_init else st
  else st

theorem range_map_cons {α : Type} (f : ℕ → α) (n : ℕ) :
    (List.range (n + 1)).map f = f 0 :: (List.range n).map (fun t => f (t + 1)) := by
  rw [List.range_succ_eq_map]
  simp [Function.comp, Nat.succ_eq_add_one]

/-- If every fetch succeeds and every upload in the window succeeds, the
drain loop attempts all entries in order and reports `all_sent = true`. -/
theorem drainGo_all (st : DataCache) (sink : ℕ → CachedSensorReading → Bool)
    (ent : ℕ → CachedSensorReading) :
    ∀ rem i,
      (∀ j, i ≤ j → j < i + rem →
        data_cache_get_reading st j = .ok (ent j) ∧ sink j (ent j) = true) →
      drainGo st sink rem i
        = (true, (List.range rem).map (fun t => (i + t, ent (i + t)))) := by
  intro rem
  induction rem with
  | zero => intro i _; simp [drainGo]
  | succ rem ih =>
    intro i h
    obtain ⟨hget, hsink⟩ := h i (le_refl i) (by omega)
    have hrec := ih (i + 1) (fun j hj1 hj2 => h j (by omega) (by omega))
    simp only [drainGo, hget, hsink, if_pos, hrec]
    rw [range_map_cons]
    simp only [Nat.add_zero, Prod.mk.injEq, List.cons.injEq, true_and]
    apply List.map_congr_left
    intro t _
    have ht : i + 1 + t = i + (t + 1) := by omega
    rw [ht]

/-- If the first failing upload in the window is at logical index `k`, the
drain loop attempts exactly the entries `i..k` in order and reports
`all_sent = false`. -/
theorem drainGo_fail (st : DataCache) (sink : ℕ → CachedSensorReading → Bool)
    (ent : ℕ → CachedSensorReading) (k : ℕ) :
    ∀ rem i, i ≤ k → k < i + rem →
      (∀ j, i ≤ j → j ≤ k → data_cache_get_reading st j = .ok (ent j)) →
      (∀ j, i ≤ j → j < k → sink j (ent j) = true) →
      sink k (ent k) = false →
      drainGo st sink rem i
        = (false, (List.range (k - i + 1)).map (fun t => (i + t, ent (i + t)))) := by
  intro rem
  induction rem with
  | zero => intro i h1 h2; omega
  | succ rem ih =>
    intro i hik hkrem hget hsink hfail
    by_cases hik0 : i = k
    · subst hik0
      have hget0 := hget i (le_refl i) (le_refl i)
      simp only [drainGo, hget0, hfail, if_neg, Bool.false_eq_true,
        not_false_iff]
      rw [show (1 : ℕ) = 0 + 1 from rfl, range_map_cons]
      simp
    · have hlt : i < k := by omega
      have hget0 := hget i (le_refl i) (by omega)
      have hsink0 := hsink i (le_refl i) hlt
      have hrec := ih (i + 1) (by omega) (by omega)
        (fun j hj1 hj2 => hget j (by omega) hj2)
        (fun j hj1 hj2 => hsink j (by omega) hj2) hfail
      simp only [drainGo, hget0, hsink0, if_pos]
      have hrange : k - i + 1 = (k - (i + 1) + 1) + 1 := by omega
      rw [hrange, range_map_cons, hrec]
      simp only [Nat.add_zero, Prod.mk.injEq, List.cons.injEq, true_and]
      apply List.map_congr_left
      intro t _
      have ht : i + 1 + t = i + (t + 1) := by omega
      rw [ht]

/-- The entry that `data_cache_get_reading` returns at logical index `j`
after the inserts `l` (the `j`-th oldest retained entry). -/
def entAt (l : List CacheAddArgs) (j : ℕ) : CachedSensorReading :=
  mkCachedReading (l.getD (l.length - min l.length 48 + j) default)

/-- C2: after any sequence of enqueues the write cursor satisfies
`0 ≤ cursor < 48` and `count ≤ 48`; every enqueue succeeds (returns 0); once
`count = 48` a further enqueue keeps `count = 48` and writes exactly the slot
from which `get 0` (the logically oldest entry) is served; and after `48 + k`
enqueues `count = 48` and `get 0` returns the `(k+1)`-th logically oldest
inserted entry. -/
theorem claim_C2_cache_invariants (l : List CacheAddArgs) (a : CacheAddArgs)
    (k : ℕ) :
    ((applyAdds l).cache_head < 48 ∧ (applyAdds l).cache_count ≤ 48) ∧
    (data_cache_add_reading (applyAdds l) a).2 = 0 ∧
    (48 ≤ l.length →
      (data_cache_add_reading (applyAdds l) a).1.cache_count = 48 ∧
      (data_cache_add_reading (applyAdds l) a).1.cache (applyAdds l).cache_head
        = mkCachedReading a ∧
      data_cache_get_reading (applyAdds l) 0
        = .ok ((applyAdds l).cache (applyAdds l).cache_head)) ∧
    (l.length = 48 + k →
      (applyAdds l).cache_count = 48 ∧
      data_cache_get_reading (applyAdds l) 0
        = .ok (mkCachedReading (l.getD k default))) := by
  have hhead := applyAdds_head l
  have hcount := applyAdds_count l
  refine ⟨⟨?_, ?_⟩, rfl, ?_, ?_⟩
  · rw [hhead]; exact Nat.mod_lt _ (by norm_num)
  · omega
  · intro hlen
    refine ⟨?_, ?_, ?_⟩
    · simp only [data_cache_add_reading, MAX_CACHED_ENTRIES]
      rw [hcount]
      split <;> omega
    · simp only [data_cache_add_reading]
      rw [Function.update_same]
    · have hslot := applyAdds_slot l 0 (by omega)
      have hidx : (l.length % 48 + (48 - min l.length 48) + 0) % 48
          = l.length % 48 := by omega
      rw [hidx] at hslot
      rw [data_cache_get_reading_applyAdds l 0 (by omega), hhead, hslot]
  · intro hlen
    refine ⟨by omega, ?_⟩
    rw [data_cache_get_reading_applyAdds l 0 (by omega)]
    have hidx : l.length - min l.length 48 + 0 = k := by omega
    rw [hidx]

/-- A concrete sequence of 50 cache inserts used to witness C2. -/
def c2list : List CacheAddArgs :=
  (List.range 50).map fun (i : ℕ) =>
    { soil_moisture := i, light_level := (2 : ℚ) * i, temperature := 20
      humidity := 50, air_movement := 5, timestamp := (i : ℤ) * 3600
      health_status := 0, env_mismatch := "none", plant_status := "Healthy" }

/-- Witness for C2 at 50 = 48 + 2 concrete enqueues. -/
theorem claim_C2_witness :
    48 ≤ c2list.length ∧ c2list.length = 48 + 2 ∧
    (data_cache_add_reading (applyAdds c2list) default).1.cache_count = 48 ∧
    (applyAdds c2list).cache_count = 48 ∧
    data_cache_get_reading (applyAdds c2list) 0
      = .ok (mkCachedReading (c2list.getD 2 default)) := by
  have h := claim_C2_cache_invariants c2list default 2
  exact ⟨by decide, by decide, (h.2.2.1 (by decide)).1,
    (h.2.2.2 (by decide)).1, (h.2.2.2 (by decide)).2⟩

/-- C1 (amended): `drain` uploads cached entries oldest-first and stops at
the first failing upload, leaving the cache fully intact; when every cached
entry upload succeeds the cache is cleared — already before, and regardless
of, the current live reading upload (`liveOk`); after a failed drain,
re-running with a never-failing sink attempts all entries and clears. -/
theorem claim_C1_drain (l : List CacheAddArgs)
    (sink : ℕ → CachedSensorReading → Bool) (liveOk : Bool) (k : ℕ)
    (hn : 0 < (applyAdds l).cache_count) :
    (k < (applyAdds l).cache_count →
      sink k (entAt l k) = false →
      (∀ j < k, sink j (entAt l j) = true) →
      sensor_work_drain (applyAdds l) sink liveOk = applyAdds l ∧
      (drainGo (applyAdds l) sink (applyAdds l).cache_count 0).2
        = (List.range (k + 1)).map (fun j => (j, entAt l j)) ∧
      (∀ (sink2 : ℕ → CachedSensorReading → Bool) (liveOk2 : Bool),
        (∀ j < (applyAdds l).cache_count, sink2 j (entAt l j) = true) →
        sensor_work_drain (sensor_work_drain (applyAdds l) sink liveOk)
            sink2 liveOk2 = data_cache_init ∧
        (drainGo (sensor_work_drain (applyAdds l) sink liveOk) sink2
            (applyAdds l).cache_count 0).2
          = (List.range (applyAdds l).cache_count).map
              (fun j => (j, entAt l j)))) ∧
    ((∀ j < (applyAdds l).cache_count, sink j (entAt l j) = true) →
      sensor_work_drain (applyAdds l) sink liveOk = data_cache_init ∧
      (drainGo (applyAdds l) sink (applyAdds l).cache_count 0).2
        = (List.range (applyAdds l).cache_count).map
            (fun j => (j, entAt l j))) := by
  have hcount := applyAdds_count l
  have hget : ∀ j < (applyAdds l).cache_count,
      data_cache_get_reading (applyAdds l) j = .ok (entAt l j) := by
    intro j hj
    exact data_cache_get_reading_applyAdds l j (by omega)
  have hall : ∀ (s : ℕ → CachedSensorReading → Bool),
      (∀ j < (applyAdds l).cache_count, s j (entAt l j) = true) →
      drainGo (applyAdds l) s (applyAdds l).cache_count 0
        = (true, (List.range (applyAdds l).cache_count).map
            (fun j => (j, entAt l j))) := by
    intro s hs
    have := drainGo_all (applyAdds l) s (entAt l) (applyAdds l).cache_count 0
      (fun j hj1 hj2 => ⟨hget j (by omega), hs j (by omega)⟩)
    simpa using this
  constructor
  · intro hk hfailk hprevok
    have hf := drainGo_fail (applyAdds l) sink (entAt l) k
      (applyAdds l).cache_count 0 (by omega) (by omega)
      (fun j hj1 hj2 => hget j (by omega))
      (fun j hj1 hj2 => hprevok j (by omega)) hfailk
    have hzero : k - 0 = k := by omega
    rw [hzero] at hf
    have hintact : sensor_work_drain (applyAdds l) sink liveOk = applyAdds l := by
      simp only [sensor_work_drain, if_pos hn, hf]
      simp
    refine ⟨hintact, ?_, ?_⟩
    · rw [hf]
      apply List.map_congr_left
      intro t _
      simp
    · intro sink2 liveOk2 hs2
      rw [hintact]
      have h2 := hall sink2 hs2
      constructor
      · simp only [sensor_work_drain, if_pos hn, h2]
        simp
      · rw [h2]
  · intro hs
    have h2 := hall sink hs
    constructor
    · simp only [sensor_work_drain, if_pos hn, h2]
      simp
    · rw [h2]

/-- A concrete sequence of 5 cache inserts used for C1. -/
def c1list : List CacheAddArgs :=
  (List.range 5).map fun (i : ℕ) =>
    { soil_moisture := (40 : ℚ) + i, light_level := 60, temperature := 22
      humidity := 55, air_movement := 10, timestamp := (i : ℤ) * 3600
      health_status := 0, env_mismatch := "none", plant_status := "Healthy" }

/-- The sink that fails exactly on the 3rd of the cached entries. -/
def c1sink (i : ℕ) (_ : CachedSensorReading) : Bool := !(i == 2)

/-- Witness for C1 (amended): a drain over 5 cached entries whose sink fails
on the 3rd attempt leaves `count() = 5` and the whole cache unchanged, and a
re-run with a never-failing sink attempts all 5 entries and clears. -/
theorem claim_C1_drain_witness :
    (applyAdds c1list).cache_count = 5 ∧
    sensor_work_drain (applyAdds c1list) c1sink false = applyAdds c1list ∧
    (drainGo (applyAdds c1list) c1sink (applyAdds c1list).cache_count 0).2
      = (List.range 3).map (fun j => (j, entAt c1list j)) ∧
    sensor_work_drain (sensor_work_drain (applyAdds c1list) c1sink false)
        (fun _ _ => true) true = data_cache_init := by
  have h := (claim_C1_drain c1list c1sink false 2 (by decide)).1
    (by decide) (by decide) (by decide)
  exact ⟨by decide, h.1, h.2.1, (h.2.2 (fun _ _ => true) true (by decide)).1⟩

/-- C1 counterexample: the claim requires the cache to be cleared *only
when* every cached entry **and the current live reading** upload succeed.
In the code the cache is cleared as soon as all cached entries are sent,
before the live upload: with 5 cached entries, an always-succeeding sink and
a failing live upload (`liveOk = false`), the cache still ends up cleared
(`count` drops from 5 to 0). -/
theorem claim_C1_counterexample :
    (applyAdds c1list).cache_count = 5 ∧
    (sensor_work_drain (applyAdds c1list) (fun _ _ => true) false).cache_count
      = 0 := by
  constructor
  · decide
  · have h1 : 0 < (applyAdds c1list).cache_count := by decide
    have h2 : (drainGo (applyAdds c1list) (fun _ _ => true)
        (applyAdds c1list).cache_count 0).1 = true := by decide
    simp only [sensor_work_drain, if_pos h1, h2]
    simp [data_cache_init]

/-! ## Time-series history store and health classifier
(`src/common/ml_analysis.c`) -/

/-- One per-channel entry of the `history[5]` array of
`struct sensor_data_with_history` (`ml_analysis.h`): a 24-slot circular
buffer of hourly values, a write cursor and a `filled` flag. -/
structure ChannelHistory where
  values : ℕ → ℚ
  index : ℕ
  filled : Bool

/-- A zeroed channel history (from `memset`/fresh-state initialization). -/
def emptyChannelHistory : ChannelHistory :=
  { values := fun _ => 0, index := 0, filled := false }

/-- `struct sensor_data_with_history` (`ml_analysis.h`): the five current
channel values, the timestamp, and five per-channel histories
(0 = soil moisture, 1 = light, 2 = temperature, 3 = humidity, 4 = air). -/
structure SensorDataWithHistory where
  soil_moisture : ℚ
  light_level : ℚ
  temperature : ℚ
  humidity : ℚ
  air_movement : ℚ
  timestamp : ℤ
  history : ℕ → ChannelHistory

/-- The zeroed sensor-data struct (`memset(&sensor_data, 0, ...)`). -/
def zeroSensorData : SensorDataWithHistory :=
  { soil_moisture := 0, light_level := 0, temperature := 0, humidity := 0
    air_movement := 0, timestamp := 0, history := fun _ => emptyChannelHistory }

/-- One of the five identical history-update blocks of
`ml_add_sensor_reading`: store the value at the cursor, advance the cursor
modulo 24, and set `filled` when the cursor wraps to 0. -/
def channelRecord (h : ChannelHistory) (v : ℚ) : ChannelHistory :=
  { values := Function.update h.values h.index v
    index := (h.index + 1) % 24
    filled := if (h.index + 1) % 24 = 0 then true else h.filled }

/-- Selects among the five value parameters of `ml_add_sensor_reading` by
channel number, in the order the source updates `history[0] .. history[4]`. -/
def channelValue (soil_moisture light_level temperature humidity
    air_movement : ℚ) : ℕ → ℚ
  | 0 => soil_moisture
  | 1 => light_level
  | 2 => temperature
  | 3 => humidity
  | _ => air_movement

/-- `ml_add_sensor_reading`: the current values and the timestamp are
updated unconditionally; the five histories are appended to — and the shared
gate timestamp advanced — only when `last_hourly_update == 0 ||
now - last_hourly_update >= 3600`.  The C `static int64_t
last_hourly_update` is threaded explicitly and returned updated. -/
def ml_add_sensor_reading (sd : SensorDataWithHistory)
    (last_hourly_update : ℤ) (soil_moisture light_level temperature humidity
    air_movement : ℚ) (now : ℤ) : SensorDataWithHistory × ℤ :=
  let sd1 : SensorDataWithHistory :=
    { sd with soil_moisture := soil_moisture, light_level := light_level
              temperature := temperature, humidity := humidity
              air_movement := air_movement, timestamp := now }
  if last_hourly_update = 0 ∨ now - last_hourly_update ≥ 3600 then
    ({ sd1 with history := fun i =>
        if i < 5 then
          channelRecord (sd.history i) (channelValue soil_moisture light_level temperature humidity air_movement i)
        else sd.history i }, now)
  else (sd1, last_hourly_update)

/-- `struct habitat_data` (the range fields used by the analysis;
`data_valid` plays no role in `ml_analyze_plant_health`). -/
structure HabitatData where
  ideal_temperature_min : ℚ
  ideal_temperature_max : ℚ
  ideal_humidity_min : ℚ
  ideal_humidity_max : ℚ
  ideal_soil_moisture_min : ℚ
  ideal_soil_moisture_max : ℚ
  ideal_light_level_min : ℚ
  ideal_light_level_max : ℚ
  deriving DecidableEq, Repr

/-- `is_temp_mismatch`. -/
def is_temp_mismatch (temp : ℚ) (habitat : HabitatData) : Bool :=
  decide (temp < habitat.ideal_temperature_min) ||
    decide (temp > habitat.ideal_temperature_max)

/-- `is_humidity_mismatch`. -/
def is_humidity_mismatch (humidity : ℚ) (habitat : HabitatData) : Bool :=
  decide (humidity < habitat.ideal_humidity_min) ||
    decide (humidity > habitat.ideal_humidity_max)

/-- `is_moisture_mismatch`. -/
def is_moisture_mismatch (moisture : ℚ) (habitat : HabitatData) : Bool :=
  decide (moisture < habitat.ideal_soil_moisture_min) ||
    decide (moisture > habitat.ideal_soil_moisture_max)

/-- `is_light_mismatch`. -/
def is_light_mismatch (light : ℚ) (habitat : HabitatData) : Bool :=
  decide (light < habitat.ideal_light_level_min) ||
    decide (light > habitat.ideal_light_level_max)

/-- `compute_temp_diff`: offset from the ideal midpoint. -/
def compute_temp_diff (temp : ℚ) (habitat : HabitatData) : ℚ :=
  temp - (habitat.ideal_temperature_min + habitat.ideal_temperature_max) / 2

/-- `compute_humidity_diff`. -/
def compute_humidity_diff (humidity : ℚ) (habitat : HabitatData) : ℚ :=
  humidity - (habitat.ideal_humidity_min + habitat.ideal_humidity_max) / 2

/-- `compute_moisture_diff`. -/
def compute_moisture_diff (moisture : ℚ) (habitat : HabitatData) : ℚ :=
  moisture - (habitat.ideal_soil_moisture_min + habitat.ideal_soil_moisture_max) / 2

/-- `compute_light_diff`. -/
def compute_light_diff (light : ℚ) (habitat : HabitatData) : ℚ :=
  light - (habitat.ideal_light_level_min + habitat.ideal_light_level_max) / 2

/-- The `environmental_mismatch` sub-struct of `struct ml_analysis_result`. -/
structure EnvironmentalMismatch where
  temperature : Bool
  humidity : Bool
  soil_moisture : Bool
  light_level : Bool
  deriving DecidableEq, Repr

/-- `ML_HEALTH_HEALTHY`. -/
def ML_HEALTH_HEALTHY : ℤ := 0

/-- `ML_HEALTH_STRESSED`. -/
def ML_HEALTH_STRESSED : ℤ := 1

/-- `ML_HEALTH_CRITICAL`. -/
def ML_HEALTH_CRITICAL : ℤ := 2

/-- `struct ml_analysis_result`.  The 256-byte recommendation buffer is
embedded as a string: the longest possible text (all four phrases) is far
below 256 bytes, so `snprintf` never truncates it. -/
structure MlAnalysisResult where
  health_status : ℤ
  confidence : ℚ
  environmental_mismatch : EnvironmentalMismatch
  recommendation : String
  deriving DecidableEq, Repr

/-- The `else` branch of `generate_recommendations`: one fixed phrase per
true mismatch flag, concatenated in source order. -/
def mismatchRecommendation (m : EnvironmentalMismatch) : String :=
  (if m.temperature then "Adjust temperature. " else "") ++
  (if m.humidity then "Adjust humidity level. " else "") ++
  (if m.soil_moisture then "Adjust watering schedule. " else "") ++
  (if m.light_level then "Adjust light exposure. " else "")

/-- `generate_recommendations`, as a function of the result fields it
reads. -/
def generate_recommendations (health_status : ℤ)
    (m : EnvironmentalMismatch) : String :=
  if health_status = ML_HEALTH_HEALTHY then "Plant is healthy. "
  else mismatchRecommendation m

/-- The accumulation loop `for (j = 0; j < history_len; j++) sum += ...`. -/
def sumVals (values : ℕ → ℚ) : ℕ → ℚ
  | 0 => 0
  | n + 1 => sumVals values n + values n

/-- `history_len` as computed inside `ml_analyze_plant_health`:
24 slots when filled, else the cursor. -/
def historyLen (h : ChannelHistory) : ℕ := if h.filled then 24 else h.index

/-- The current value of channel `i`, i.e. `model_input[i]` for `i < 5`. -/
def currentValue (sd : SensorDataWithHistory) : ℕ → ℚ
  | 0 => sd.soil_moisture
  | 1 => sd.light_level
  | 2 => sd.temperature
  | 3 => sd.humidity
  | _ => sd.air_movement

/-- The rolling-average computation for `model_input[10 + i]`: the mean of
the populated history slots, falling back to the current value
(`model_input[i]`) when no slot is populated. -/
def rollingAverage (sd : SensorDataWithHistory) (i : ℕ) : ℚ :=
  let len := historyLen (sd.history i)
  if 0 < len then sumVals (sd.history i).values len / len
  else currentValue sd i

/-- The 15-element `model_input` feature vector assembled by
`ml_analyze_plant_health`, in source index order 0..14. -/
def model_input (sd : SensorDataWithHistory) (habitat : HabitatData) :
    List ℚ :=
  [sd.soil_moisture, sd.light_level, sd.temperature, sd.humidity,
   sd.air_movement,
   compute_moisture_diff sd.soil_moisture habitat,
   compute_light_diff sd.light_level habitat,
   compute_temp_diff sd.temperature habitat,
   compute_humidity_diff sd.humidity habitat,
   0,
   rollingAverage sd 0, rollingAverage sd 1, rollingAverage sd 2,
   rollingAverage sd 3, rollingAverage sd 4]

/-- `ml_analyze_plant_health` on a successful inference.  The external
inference capability (`tflite_run_inference`) is a parameter mapping the
feature vector to the three class probabilities `model_output[0..2]`; the
argmax loop keeps the first (lowest-index) class on ties because it updates
only on a strictly greater probability. -/
def ml_analyze_plant_health (sd : SensorDataWithHistory)
    (habitat : HabitatData) (infer : List ℚ → ℕ → ℚ) : MlAnalysisResult :=
  let model_output := infer (model_input sd habitat)
  let s1 : ℚ × ℤ :=
    if model_output 1 > model_output 0 then (model_output 1, 1)
    else (model_output 0, 0)
  let s2 : ℚ × ℤ :=
    if model_output 2 > s1.1 then (model_output 2, 2) else s1
  let mism : EnvironmentalMismatch :=
    { temperature := is_temp_mismatch sd.temperature habitat
      humidity := is_humidity_mismatch sd.humidity habitat
      soil_moisture := is_moisture_mismatch sd.soil_moisture habitat
      light_level := is_light_mismatch sd.light_level habitat }
  { health_status := s2.2, confidence := s2.1
    environmental_mismatch := mism
    recommendation := generate_recommendations s2.2 mism }

theorem ml_analyze_mismatch_eq (sd : SensorDataWithHistory)
    (habitat : HabitatData) (infer : List ℚ → ℕ → ℚ) :
    (ml_analyze_plant_health sd habitat infer).environmental_mismatch
      = ⟨is_temp_mismatch sd.temperature habitat
        , is_humidity_mismatch sd.humidity habitat
        , is_moisture_mismatch sd.soil_moisture habitat
        , is_light_mismatch sd.light_level habitat⟩ := rfl

theorem ml_analyze_recommendation_eq (sd : SensorDataWithHistory)
    (habitat : HabitatData) (infer : List ℚ → ℕ → ℚ) :
    (ml_analyze_plant_health sd habitat infer).recommendation
      = generate_recommendations
          (ml_analyze_plant_health sd habitat infer).health_status
          (ml_analyze_plant_health sd habitat infer).environmental_mismatch :=
  rfl

theorem decide_pair_or_false {x lo hi : ℚ} (h1 : lo ≤ x) (h2 : x ≤ hi) :
    (decide (x < lo) || decide (x > hi)) = false := by
  have a1 : decide (x < lo) = false := decide_eq_false (not_lt.mpr h1)
  have a2 : decide (x > hi) = false := decide_eq_false (not_lt.mpr h2)
  rw [a1, a2]
  rfl

/-- The C6/C9 scenario reading: {moisture 40, light 60, temp 22,
humidity 55, air 10}, no history populated yet. -/
def c6sd : SensorDataWithHistory :=
  { soil_moisture := 40, light_level := 60, temperature := 22, humidity := 55
    air_movement := 10, timestamp := 0
    history := fun _ => emptyChannelHistory }

/-- The C6/C9 habitat range: {moisture [30,70], light [30,80], temp [18,26],
humidity [40,70]}. -/
def c6habitat : HabitatData :=
  { ideal_temperature_min := 18, ideal_temperature_max := 26
    ideal_humidity_min := 40, ideal_humidity_max := 70
    ideal_soil_moisture_min := 30, ideal_soil_moisture_max := 70
    ideal_light_level_min := 30, ideal_light_level_max := 80 }

/-- C6 counterexample: for the claimed scenario the humidity ideal-offset
feature (index 8) is `55 - (40 + 70)/2 = 0`, not `-2.5`, so the assembled
vector differs from the claimed one at index 8. -/
theorem claim_C6_counterexample :
    (model_input c6sd c6habitat).getD 8 0 = 0 ∧
    model_input c6sd c6habitat
      ≠ [40, 60, 22, 55, 10, -10, 5, 0, -5/2, 0, 40, 60, 22, 55, 10] := by
  constructor <;> decide

/-- C6 (amended): for the reading {moisture 40, light 60, temp 22,
humidity 55, air 10}, range {moisture [30,70], light [30,80], temp [18,26],
humidity [40,70]} and no history yet, the classifier assembles exactly
`[40,60,22,55,10, -10,5,0,0,0, 40,60,22,55,10]`: indices 0-4 the current
channel values, 5-9 the ideal-midpoint offsets (humidity offset 0, air fixed
at 0), 10-14 the rolling averages (cold-start fallback to the current
values). -/
theorem claim_C6_feature_vector :
    model_input c6sd c6habitat
      = [40, 60, 22, 55, 10, -10, 5, 0, 0, 0, 40, 60, 22, 55, 10] := by
  decide

/-- C8 counterexample: on the very first recording (`last_hourly_update`
still 0) at `now = 60`, the rolling-buffer cursors do advance even though
`now - last_hourly_update = 60 < 3600`, contradicting the claim that
appends happen only when `now - last_hourly_update ≥ 3600`. -/
theorem claim_C8_counterexample :
    ¬((60 : ℤ) - 0 ≥ 3600) ∧
    ((ml_add_sensor_reading zeroSensorData 0 40 60 22 55 10 60).1.history 0).index
      = 1 ∧
    (ml_add_sensor_reading zeroSensorData 0 40 60 22 55 10 60).2 = 60 := by
  refine ⟨by decide, by decide, by decide⟩

/-- C8 (amended): `record` updates the five current values and the
timestamp unconditionally; it appends to the 24-slot rolling buffers exactly
when `last_hourly_update = 0` (the first-call sentinel) or
`now - last_hourly_update ≥ 3600`, with the single shared gate timestamp
making all five channels advance together or none at all; in particular a
write within the same hour window with a nonzero `last_hourly_update` never
advances any rolling-buffer cursor. -/
theorem claim_C8_hourly_gate (sd : SensorDataWithHistory) (last : ℤ)
    (v0 v1 v2 v3 v4 : ℚ) (now : ℤ) :
    ((ml_add_sensor_reading sd last v0 v1 v2 v3 v4 now).1.soil_moisture = v0 ∧
      (ml_add_sensor_reading sd last v0 v1 v2 v3 v4 now).1.light_level = v1 ∧
      (ml_add_sensor_reading sd last v0 v1 v2 v3 v4 now).1.temperature = v2 ∧
      (ml_add_sensor_reading sd last v0 v1 v2 v3 v4 now).1.humidity = v3 ∧
      (ml_add_sensor_reading sd last v0 v1 v2 v3 v4 now).1.air_movement = v4 ∧
      (ml_add_sensor_reading sd last v0 v1 v2 v3 v4 now).1.timestamp = now) ∧
    ((last = 0 ∨ now - last ≥ 3600) →
      (∀ i < 5, (ml_add_sensor_reading sd last v0 v1 v2 v3 v4 now).1.history i
        = channelRecord (sd.history i) (channelValue v0 v1 v2 v3 v4 i)) ∧
      (ml_add_sensor_reading sd last v0 v1 v2 v3 v4 now).2 = now) ∧
    (last ≠ 0 → now - last < 3600 →
      (∀ i, (ml_add_sensor_reading sd last v0 v1 v2 v3 v4 now).1.history i
        = sd.history i) ∧
      (ml_add_sensor_reading sd last v0 v1 v2 v3 v4 now).2 = last) := by
  by_cases hg : last = 0 ∨ now - last ≥ 3600
  · refine ⟨?_, fun _ => ⟨fun i hi => ?_, ?_⟩, fun h1 h2 => ?_⟩
    · simp [ml_add_sensor_reading, hg]
    · simp [ml_add_sensor_reading, hg, hi]
    · simp [ml_add_sensor_reading, hg]
    · rcases hg with h | h
      · exact absurd h h1
      · omega
  · refine ⟨?_, fun h => absurd h hg, fun _ _ => ⟨fun i => ?_, ?_⟩⟩
    · simp [ml_add_sensor_reading, hg]
    · simp [ml_add_sensor_reading, hg]
    · simp [ml_add_sensor_reading, hg]

/-- Witness for C8 (amended): a recording exactly one hour after the last
append does append (gate open), and a recording 60 s after it does not
(gate closed), with the shared timestamp updated only in the first case. -/
theorem claim_C8_hourly_gate_witness :
    ((ml_add_sensor_reading zeroSensorData 3600 40 60 22 55 10 7200).1.history 0
        = channelRecord (zeroSensorData.history 0)
            (channelValue 40 60 22 55 10 0) ∧
      (ml_add_sensor_reading zeroSensorData 3600 40 60 22 55 10 7200).2
        = 7200) ∧
    ((∀ i,
        (ml_add_sensor_reading zeroSensorData 3600 40 60 22 55 10 3660).1.history i
          = zeroSensorData.history i) ∧
      (ml_add_sensor_reading zeroSensorData 3600 40 60 22 55 10 3660).2
        = 3600) := by
  have h1 := (claim_C8_hourly_gate zeroSensorData 3600 40 60 22 55 10 7200).2.1
    (by decide)
  have h2 := (claim_C8_hourly_gate zeroSensorData 3600 40 60 22 55 10 3660).2.2
    (by decide) (by decide)
  exact ⟨⟨h1.1 0 (by norm_num), h1.2⟩, h2⟩

/-- C9: mismatch flags come only from the habitat-range comparison, never
from the classifier output: any reading inside all habitat ranges that the
inference capability classifies Stressed yields all-false mismatch flags
and an empty recommendation — in particular "Plant is healthy." is not
emitted; that phrase appears exactly when `health_status` is Healthy, and
for any other class the recommendation is the concatenation of the fixed
phrases for the true mismatch flags (never the healthy phrase). -/
theorem claim_C9_mismatch_independent (sd : SensorDataWithHistory)
    (habitat : HabitatData) (infer : List ℚ → ℕ → ℚ) :
    ((habitat.ideal_temperature_min ≤ sd.temperature ∧
        sd.temperature ≤ habitat.ideal_temperature_max) →
      (habitat.ideal_humidity_min ≤ sd.humidity ∧
        sd.humidity ≤ habitat.ideal_humidity_max) →
      (habitat.ideal_soil_moisture_min ≤ sd.soil_moisture ∧
        sd.soil_moisture ≤ habitat.ideal_soil_moisture_max) →
      (habitat.ideal_light_level_min ≤ sd.light_level ∧
        sd.light_level ≤ habitat.ideal_light_level_max) →
      (ml_analyze_plant_health sd habitat infer).environmental_mismatch
        = ⟨false, false, false, false⟩ ∧
      ((ml_analyze_plant_health sd habitat infer).health_status
          = ML_HEALTH_STRESSED →
        (ml_analyze_plant_health sd habitat infer).recommendation = "" ∧
        (ml_analyze_plant_health sd habitat infer).recommendation
          ≠ "Plant is healthy. ")) ∧
    ((ml_analyze_plant_health sd habitat infer).health_status
        ≠ ML_HEALTH_HEALTHY →
      (ml_analyze_plant_health sd habitat infer).recommendation
        = mismatchRecommendation
            (ml_analyze_plant_health sd habitat infer).environmental_mismatch) ∧
    (∀ m : EnvironmentalMismatch,
      mismatchRecommendation m ≠ "Plant is healthy. ") ∧
    ((ml_analyze_plant_health sd habitat infer).health_status
        = ML_HEALTH_HEALTHY →
      (ml_analyze_plant_health sd habitat infer).recommendation
        = "Plant is healthy. ") := by
  refine ⟨?_, ?_, ?_, ?_⟩
  · intro h1 h2 h3 h4
    have hm : (ml_analyze_plant_health sd habitat infer).environmental_mismatch
        = ⟨false, false, false, false⟩ := by
      rw [ml_analyze_mismatch_eq]
      have e1 : is_temp_mismatch sd.temperature habitat = false :=
        decide_pair_or_false h1.1 h1.2
      have e2 : is_humidity_mismatch sd.humidity habitat = false :=
        decide_pair_or_false h2.1 h2.2
      have e3 : is_moisture_mismatch sd.soil_moisture habitat = false :=
        decide_pair_or_false h3.1 h3.2
      have e4 : is_light_mismatch sd.light_level habitat = false :=
        decide_pair_or_false h4.1 h4.2
      rw [e1, e2, e3, e4]
    refine ⟨hm, fun hs => ?_⟩
    have hrec := ml_analyze_recommendation_eq sd habitat infer
    rw [hs, hm] at hrec
    rw [hrec]
    constructor <;> decide
  · intro hne
    rw [ml_analyze_recommendation_eq, generate_recommendations,
      if_neg hne]
  · intro m
    obtain ⟨mt, mh, ms, ml⟩ := m
    cases mt <;> cases mh <;> cases ms <;> cases ml <;> decide
  · intro he
    rw [ml_analyze_recommendation_eq, he, generate_recommendations, if_pos rfl]

/-- An inference capability classifying every input as Stressed
(probabilities 0.2 / 0.7 / 0.1). -/
def c9infer (_ : List ℚ) (i : ℕ) : ℚ :=
  if i = 1 then 7/10 else if i = 0 then 1/5 else 1/10

/-- Witness for C9: the in-range C6 reading classified Stressed by
`c9infer` carries all-false mismatch flags and an empty recommendation. -/
theorem claim_C9_witness :
    (ml_analyze_plant_health c6sd c6habitat c9infer).health_status = 1 ∧
    (ml_analyze_plant_health c6sd c6habitat c9infer).environmental_mismatch
      = ⟨false, false, false, false⟩ ∧
    (ml_analyze_plant_health c6sd c6habitat c9infer).recommendation = "" ∧
    (ml_analyze_plant_health c6sd c6habitat c9infer).recommendation
      ≠ "Plant is healthy. " := by
  have h := (claim_C9_mismatch_independent c6sd c6habitat c9infer).1
    (by constructor <;> decide) (by constructor <;> decide)
    (by constructor <;> decide) (by constructor <;> decide)
  have hs : (ml_analyze_plant_health c6sd c6habitat c9infer).health_status
      = ML_HEALTH_STRESSED := by decide
  exact ⟨hs, h.1, (h.2 hs).1, (h.2 hs).2⟩

/-! ## Rolling-average characterization (C7) -/

/-- The channel history reached from the empty buffer by the given sequence
of appended values, oldest first. -/
def channelApply (vl : List ℚ) : ChannelHistory :=
  vl.foldl channelRecord emptyChannelHistory

theorem channelApply_append (vl : List ℚ) (v : ℚ) :
    channelApply (vl ++ [v]) = channelRecord (channelApply vl) v := by
  simp [channelApply, List.foldl_append]

theorem channelApply_index (vl : List ℚ) :
    (channelApply vl).index = vl.length % 24 := by
  induction vl using List.reverseRecOn with
  | nil => simp [channelApply, emptyChannelHistory]
  | append_singleton vl v ih =>
    rw [channelApply_append]
    simp only [channelRecord, List.length_append, List.length_singleton, ih]
    omega

theorem channelApply_filled (vl : List ℚ) :
    (channelApply vl).filled = decide (24 ≤ vl.length) := by
  induction vl using List.reverseRecOn with
  | nil => simp [channelApply, emptyChannelHistory]
  | append_singleton vl v ih =>
    rw [channelApply_append]
    simp only [channelRecord, List.length_append, List.length_singleton, ih,
      channelApply_index]
    by_cases h : (vl.length % 24 + 1) % 24 = 0
    · rw [if_pos h]
      have : 24 ≤ vl.length + 1 := by omega
      simp [this]
    · rw [if_neg h]
      exact decide_eq_decide.mpr (by omega)

/-- Ring-buffer slot invariant for a channel history: the slot holding the
`i`-th oldest retained value after the appends `vl` is
`(length % 24 + (24 - min length 24) + i) % 24`. -/
theorem channelApply_slot (vl : List ℚ) :
    ∀ i < min vl.length 24,
      (channelApply vl).values ((vl.length % 24 + (24 - min vl.length 24) + i) % 24)
        = vl.getD (vl.length - min vl.length 24 + i) 0 := by
  induction vl using List.reverseRecOn with
  | nil => simp
  | append_singleton vl v ih =>
    intro i hi
    rw [channelApply_append]
    simp only [channelRecord, channelApply_index]
    have hL : (vl ++ [v]).length = vl.length + 1 := by simp
    rw [hL] at hi ⊢
    by_cases hlast : i = min (vl.length + 1) 24 - 1
    · subst hlast
      have hpt : ((vl.length + 1) % 24 +
          (24 - min (vl.length + 1) 24) + (min (vl.length + 1) 24 - 1)) % 24
          = vl.length % 24 := by omega
      rw [hpt, Function.update_same]
      rw [List.getD_append_right _ _ _ _ (by omega)]
      simp only [List.length_singleton, List.getD]
      have : vl.length + 1 - min (vl.length + 1) 24 +
          (min (vl.length + 1) 24 - 1) - vl.length = 0 := by omega
      simp [this]
    · have hine : ((vl.length + 1) % 24 +
          (24 - min (vl.length + 1) 24) + i) % 24 ≠ vl.length % 24 := by omega
      rw [Function.update_noteq hine]
      have hsh : ((vl.length + 1) % 24 + (24 - min (vl.length + 1) 24) + i) % 24
          = (vl.length % 24 + (24 - min vl.length 24) +
              (i + 1 - (min (vl.length + 1) 24 - min vl.length 24))) % 24 := by
        omega
      rw [hsh]
      have harg : i + 1 - (min (vl.length + 1) 24 - min vl.length 24)
          < min vl.length 24 := by omega
      rw [ih _ harg]
      rw [List.getD_append _ _ _ _ (by omega)]
      congr 1
      omega

theorem sumVals_eq_sum_range (v : ℕ → ℚ) (n : ℕ) :
    sumVals v n = ∑ j ∈ Finset.range n, v j := by
  induction n with
  | zero => simp [sumVals]
  | succ n ih => rw [sumVals, ih, Finset.sum_range_succ]

/-- A sum over all 24 slots is invariant under a cyclic shift of the
indexing. -/
theorem sum_range_mod_shift (v : ℕ → ℚ) (s : ℕ) :
    ∑ j ∈ Finset.range 24, v j = ∑ i ∈ Finset.range 24, v ((s + i) % 24) := by
  apply Finset.sum_nbij' (fun j => (j + (24 - s % 24)) % 24)
    (fun i => (s + i) % 24)
  · intro a ha
    simp only [Finset.mem_range] at ha ⊢
    omega
  · intro a ha
    simp only [Finset.mem_range] at ha ⊢
    omega
  · intro a ha
    simp only [Finset.mem_range] at ha
    omega
  · intro a ha
    simp only [Finset.mem_range] at ha
    omega
  · intro a ha
    simp only [Finset.mem_range] at ha
    congr 1
    omega

theorem channelApply_histLen (vl : List ℚ) :
    historyLen (channelApply vl) = min vl.length 24 := by
  unfold historyLen
  rw [channelApply_filled, channelApply_index]
  by_cases h : 24 ≤ vl.length
  · rw [decide_eq_true h, if_pos rfl]
    omega
  · rw [decide_eq_false h]
    simp only [Bool.false_eq_true, if_false]
    omega

/-- The sum over the populated slots equals the sum of the last
`min (length, 24)` appended values. -/
theorem channelApply_sum (vl : List ℚ) :
    sumVals (channelApply vl).values (historyLen (channelApply vl))
      = ∑ i ∈ Finset.range (min vl.length 24),
          vl.getD (vl.length - min vl.length 24 + i) 0 := by
  rw [channelApply_histLen, sumVals_eq_sum_range]
  by_cases h : 24 ≤ vl.length
  · have hmin : min vl.length 24 = 24 := by omega
    rw [hmin]
    rw [sum_range_mod_shift _ (vl.length % 24)]
    apply Finset.sum_congr rfl
    intro i hi
    simp only [Finset.mem_range] at hi
    have hslot := channelApply_slot vl i (by omega)
    have hidx : (vl.length % 24 + i) % 24
        = (vl.length % 24 + (24 - min vl.length 24) + i) % 24 := by omega
    rw [hidx, hslot, hmin]
  · have hmin : min vl.length 24 = vl.length := by omega
    rw [hmin]
    apply Finset.sum_congr rfl
    intro i hi
    simp only [Finset.mem_range] at hi
    have hslot := channelApply_slot vl i (by omega)
    have hidx : (vl.length % 24 + (24 - min vl.length 24) + i) % 24 = i := by
      omega
    rw [hidx] at hslot
    rw [hslot]
    congr 1
    omega

theorem sum_range_getD_eq_sum_drop (vl : List ℚ) :
    ∀ s, ∑ i ∈ Finset.range (vl.length - s), vl.getD (s + i) 0
      = (vl.drop s).sum := by
  induction vl with
  | nil => intro s; simp
  | cons a t ih =>
    intro s
    cases s with
    | zero =>
      rw [List.drop_zero, List.length_cons, Nat.sub_zero,
        Finset.sum_range_succ']
      simp only [Nat.zero_add, List.getD_cons_succ, List.getD_cons_zero,
        List.sum_cons]
      have := ih 0
      rw [Nat.sub_zero] at this
      simp only [Nat.zero_add] at this
      rw [this, List.drop_zero]
      ring
    | succ s2 =>
      rw [List.drop_succ_cons, List.length_cons]
      have hlen : t.length + 1 - (s2 + 1) = t.length - s2 := by omega
      rw [hlen]
      rw [← ih s2]
      apply Finset.sum_congr rfl
      intro i _
      have : s2 + 1 + i = (s2 + i) + 1 := by omega
      rw [this, List.getD_cons_succ]

/-! ## The periodic recording pipeline for C7/C8 -/

/-- One call of `ml_add_sensor_reading`: the five channel values and the
tick timestamp. -/
structure SensorWrite where
  soil_moisture : ℚ
  light_level : ℚ
  temperature : ℚ
  humidity : ℚ
  air_movement : ℚ
  now : ℤ
  deriving DecidableEq, Inhabited, Repr

/-- The value a write carries for channel `i`. -/
def writeValue (w : SensorWrite) : ℕ → ℚ :=
  channelValue w.soil_moisture w.light_level w.temperature w.humidity
    w.air_movement

/-- Apply `ml_add_sensor_reading` for each write in order, starting from
the zeroed struct and `last_hourly_update = 0`. -/
def applyRecords (l : List SensorWrite) : SensorDataWithHistory × ℤ :=
  l.foldl (fun st w => ml_add_sensor_reading st.1 st.2 w.soil_moisture
    w.light_level w.temperature w.humidity w.air_movement w.now)
    (zeroSensorData, 0)

theorem applyRecords_append (l : List SensorWrite) (w : SensorWrite) :
    applyRecords (l ++ [w]) = ml_add_sensor_reading (applyRecords l).1
      (applyRecords l).2 w.soil_moisture w.light_level w.temperature
      w.humidity w.air_movement w.now := by
  simp [applyRecords, List.foldl_append]

/-- When consecutive writes are spaced at least one hour apart, every write
passes the hourly gate: each channel history is exactly the fold of that
channel's values, and the shared gate timestamp is the last write's time. -/
theorem applyRecords_spaced (l : List SensorWrite)
    (hsp : l.Chain' (fun a b => a.now + 3600 ≤ b.now)) :
    (∀ i < 5, (applyRecords l).1.history i
        = channelApply (l.map (fun w => writeValue w i))) ∧
    (applyRecords l).2 = ((l.getLast?).map SensorWrite.now).getD 0 := by
  induction l using List.reverseRecOn with
  | nil =>
    constructor
    · intro i _
      rfl
    · rfl
  | append_singleton l w ih =>
    rw [List.chain'_append] at hsp
    obtain ⟨hsp1, _, hrel⟩ := hsp
    obtain ⟨ihHist, ihLast⟩ := ih hsp1
    have hgate : (applyRecords l).2 = 0 ∨
        w.now - (applyRecords l).2 ≥ 3600 := by
      cases hl : l.getLast? with
      | none => left; rw [ihLast, hl]; rfl
      | some x =>
        right
        have hx := hrel x hl w (by simp)
        have he : (Option.map SensorWrite.now (some x)).getD 0 = x.now := rfl
        rw [ihLast, hl, he]
        omega
    rw [applyRecords_append]
    constructor
    · intro i hi
      simp only [ml_add_sensor_reading, if_pos hgate, hi, if_true]
      rw [ihHist i hi, List.map_append, List.map_singleton,
        channelApply_append]
      rfl
    · simp only [ml_add_sensor_reading, if_pos hgate]
      rw [List.getLast?_concat]
      rfl

/-- C7: the rolling-average feature of every channel equals the channel's
current value while no slot is populated, and after `N` writes spaced at
least one hour apart it equals the arithmetic mean of the channel's last
`min (N, 24)` written values. -/
theorem claim_C7_rolling_average (l : List SensorWrite) (i : ℕ) (hi : i < 5)
    (hsp : l.Chain' (fun a b => a.now + 3600 ≤ b.now)) :
    (l = [] →
      rollingAverage (applyRecords l).1 i = currentValue (applyRecords l).1 i) ∧
    (l ≠ [] →
      rollingAverage (applyRecords l).1 i
        = ((l.map (fun w => writeValue w i)).drop
              (l.length - min l.length 24)).sum
            / ((min l.length 24 : ℕ) : ℚ)) := by
  have hhist := (applyRecords_spaced l hsp).1 i hi
  constructor
  · intro hnil
    subst hnil
    rfl
  · intro hne
    have hlen : 0 < l.length := List.length_pos.mpr hne
    unfold rollingAverage
    rw [hhist, channelApply_histLen]
    have hlen2 : (l.map (fun w => writeValue w i)).length = l.length := by
      simp
    rw [hlen2]
    rw [if_pos (by omega)]
    have hsum := channelApply_sum (l.map (fun w => writeValue w i))
    rw [channelApply_histLen, hlen2] at hsum
    rw [hsum]
    have hdrop := sum_range_getD_eq_sum_drop (l.map (fun w => writeValue w i))
      (l.length - min l.length 24)
    rw [hlen2] at hdrop
    have hcnt : l.length - (l.length - min l.length 24) = min l.length 24 := by
      omega
    rw [hcnt] at hdrop
    rw [hdrop]

theorem chain'_of_getD {α : Type} (d : α) (R : α → α → Prop) (l : List α)
    (h : ∀ j < l.length - 1, R (l.getD j d) (l.getD (j + 1) d)) :
    l.Chain' R := by
  rw [List.chain'_iff_get]
  intro i hi
  have h2 := h i hi
  rw [List.getD_eq_getElem l d (by omega), List.getD_eq_getElem l d (by omega)]
    at h2
  simpa [List.get_eq_getElem] using h2

/-- The 26 spaced writes used to witness C7. -/
def c7list : List SensorWrite :=
  (List.range 26).map fun (t : ℕ) =>
    { soil_moisture := (2 : ℚ) + t, light_level := t, temperature := t
      humidity := t, air_movement := t, now := 3600 * (t : ℤ) }

/-- Witness for C7: after 26 hourly writes the soil-moisture rolling
average is the mean of the last 24 written values, `31/2`. -/
theorem claim_C7_witness :
    c7list ≠ [] ∧ c7list.Chain' (fun a b => a.now + 3600 ≤ b.now) ∧
    rollingAverage (applyRecords c7list).1 0 = 31 / 2 := by
  have hch : c7list.Chain' (fun a b => a.now + 3600 ≤ b.now) :=
    chain'_of_getD default _ c7list (by decide)
  refine ⟨by decide, hch, ?_⟩
  have h := (claim_C7_rolling_average c7list 0 (by norm_num) hch).2
    (by decide)
  rw [h]
  decide

/-! ## Status-string synthesis (`src/common/plant_analysis.c`) -/

/-- `plant_analysis_get_status_string`.  NULL pointers are embedded as
`none` (for the result) and `false` (for the output buffer); on success the
value is the C string left in the buffer after
`strncpy(output_str, s, output_size - 1)` and the explicit terminator at
`output_size - 1`; `-EINVAL` is `-22`. -/
def plant_analysis_get_status_string (result : Option MlAnalysisResult)
    (output_str : Bool) (output_size : ℕ) : Except ℤ String :=
  match result with
  | none => .error (-22)
  | some r =>
    if output_str = false ∨ output_size = 0 then .error (-22)
    else
      let s :=
        if r.health_status = ML_HEALTH_CRITICAL then "Critical"
        else if r.health_status = ML_HEALTH_STRESSED then "Stressed"
        else if r.environmental_mismatch.temperature ||
            r.environmental_mismatch.humidity ||
            r.environmental_mismatch.soil_moisture ||
            r.environmental_mismatch.light_level then "Adjustment Needed"
        else "Healthy"
      .ok (strncpyTrunc s (output_size - 1))

theorem strncpyTrunc_of_le (s : String) (n : ℕ) (h : s.length ≤ n) :
    strncpyTrunc s n = s := by
  have hd : s.data.take n = s.data := List.take_of_length_le h
  rw [strncpyTrunc, hd]

/-- C10: the status string is "Critical" for health class Critical,
"Stressed" for Stressed, otherwise "Adjustment Needed" when any
environmental-mismatch flag is set and "Healthy" when none is; a null
result, a null output buffer, or a zero output size yields `-EINVAL`; and
any successful output fits in `output_size - 1` characters (the terminator
always fits). -/
theorem claim_C10_status_string (r : MlAnalysisResult) (b : Bool)
    (size : ℕ) :
    plant_analysis_get_status_string none b size = .error (-22) ∧
    plant_analysis_get_status_string (some r) false size = .error (-22) ∧
    plant_analysis_get_status_string (some r) b 0 = .error (-22) ∧
    (18 ≤ size → b = true →
      plant_analysis_get_status_string (some r) b size
        = .ok (if r.health_status = 2 then "Critical"
            else if r.health_status = 1 then "Stressed"
            else if r.environmental_mismatch.temperature ||
                r.environmental_mismatch.humidity ||
                r.environmental_mismatch.soil_moisture ||
                r.environmental_mismatch.light_level then "Adjustment Needed"
            else "Healthy")) ∧
    (∀ s, plant_analysis_get_status_string (some r) b size = .ok s →
      s.length ≤ size - 1) := by
  refine ⟨rfl, rfl, ?_, ?_, ?_⟩
  · simp [plant_analysis_get_status_string]
  · intro hsize hb
    subst hb
    rw [plant_analysis_get_status_string]
    rw [if_neg (by simp; omega)]
    have htr : ∀ s : String, s.length ≤ 17 →
        strncpyTrunc s (size - 1) = s := by
      intro s hs
      exact strncpyTrunc_of_le s (size - 1) (by omega)
    simp only [ML_HEALTH_CRITICAL, ML_HEALTH_STRESSED]
    split
    · rw [htr _ (by decide)]
    · split
      · rw [htr _ (by decide)]
      · split
        · rw [htr _ (by decide)]
        · rw [htr _ (by decide)]
  · intro s hs
    rw [plant_analysis_get_status_string] at hs
    by_cases hb : b = false ∨ size = 0
    · rw [if_pos hb] at hs
      cases hs
    · rw [if_neg hb] at hs
      have := Except.ok.inj hs
      subst this
      show (String.length ⟨_⟩) ≤ size - 1
      rw [String.length, List.length_take]
      omega

/-- Witness for C10: a Healthy-classified result with a humidity mismatch
in a 32-byte buffer yields "Adjustment Needed"; EINVAL cases and the length
bound at the same inputs. -/
theorem claim_C10_witness :
    plant_analysis_get_status_string
        (some { health_status := 0, confidence := 9/10
                environmental_mismatch :=
                  { temperature := false, humidity := true
                    soil_moisture := false, light_level := false }
                recommendation := "" }) true 32
      = .ok "Adjustment Needed" ∧
    plant_analysis_get_status_string none true 32 = .error (-22) ∧
    ("Adjustment Needed".length ≤ 32 - 1) := by
  have h := claim_C10_status_string
    { health_status := 0, confidence := 9/10
      environmental_mismatch :=
        { temperature := false, humidity := true
          soil_moisture := false, light_level := false }
      recommendation := "" } true 32
  have h4 := h.2.2.2.1 (by norm_num) rfl
  refine ⟨?_, h.1, ?_⟩
  · rw [h4]
    norm_num
  · have h5 := h.2.2.2.2 "Adjustment Needed"
    apply h5
    rw [h4]
    norm_num

/-! ## Water-usage predictor (`src/common/water_analysis.c`) -/

/-- `WATER_HISTORY_SIZE` = 7 days × 24 samples (`water_analysis.h`). -/
def WATER_HISTORY_SIZE : ℕ := 168

/-- The `history` sub-struct of `struct water_consumption_pattern`. -/
structure WaterHistory where
  moisture : ℕ → ℚ
  timestamps : ℕ → ℤ
  index : ℕ
  filled : Bool

/-- `struct water_consumption_pattern`. -/
structure WaterConsumptionPattern where
  daily_consumption_rate : ℚ
  declining_consumption : Bool
  next_watering_timestamp : ℤ
  prediction_confidence : ℚ
  history : WaterHistory

/-- `water_analysis_init`: the zeroed pattern (`memset`). -/
def water_analysis_init : WaterConsumptionPattern :=
  { daily_consumption_rate := 0, declining_consumption := false
    next_watering_timestamp := 0, prediction_confidence := 0
    history := { moisture := fun _ => 0, timestamps := fun _ => 0
                 index := 0, filled := false } }

/-- `water_analysis_add_reading`: append unconditionally each tick, advance
the cursor modulo 168, set `filled` on wrap-around. -/
def water_analysis_add_reading (wp : WaterConsumptionPattern)
    (moisture : ℚ) (timestamp : ℤ) : WaterConsumptionPattern :=
  { wp with history :=
      { moisture := Function.update wp.history.moisture wp.history.index moisture
        timestamps := Function.update wp.history.timestamps wp.history.index timestamp
        index := (wp.history.index + 1) % WATER_HISTORY_SIZE
        filled := if (wp.history.index + 1) % WATER_HISTORY_SIZE = 0 then true
                  else wp.history.filled } }

/-- `usable_samples` as computed in `water_analysis_predict_watering`. -/
def usableSamples (h : WaterHistory) : ℕ :=
  if h.filled then WATER_HISTORY_SIZE else h.index

/-- `start_idx`: the most recent sample's slot. -/
def startIdx (h : WaterHistory) : ℕ :=
  (h.index + WATER_HISTORY_SIZE - 1) % WATER_HISTORY_SIZE

/-- `current_idx` for walk iteration `k`: `(start_idx - k + 168) % 168`. -/
def pairCur (start k : ℕ) : ℕ :=
  (start + WATER_HISTORY_SIZE - k) % WATER_HISTORY_SIZE

/-- `prev_idx` for walk iteration `k`: `(current_idx - 1 + 168) % 168`. -/
def pairPrev (start k : ℕ) : ℕ :=
  (pairCur start k + WATER_HISTORY_SIZE - 1) % WATER_HISTORY_SIZE

/-- `time_diff` of walk iteration `k`. -/
def pairTd (h : WaterHistory) (start k : ℕ) : ℤ :=
  h.timestamps (pairCur start k) - h.timestamps (pairPrev start k)

/-- `moisture_diff` of walk iteration `k`: `older - newer`
(positive = decline). -/
def pairMd (h : WaterHistory) (start k : ℕ) : ℚ :=
  h.moisture (pairPrev start k) - h.moisture (pairCur start k)

/-- The backward decline walk of `water_analysis_predict_watering`
(`for (i = 0; i < usable_samples - 1; i++)`): `rem` iterations remain,
`k` is the loop variable, `total`/`count` the running accumulators.  A
usable pair (`0 < time_diff < 7200` and `moisture_diff > 0`) accumulates;
otherwise a `moisture_diff < -5` pair (an abrupt rise: a watering event)
stops the walk; any other pair is skipped. -/
def declineGo (h : WaterHistory) (start : ℕ) :
    ℕ → ℕ → ℚ → ℕ → ℚ × ℕ
  | 0, _, total, count => (total, count)
  | rem + 1, k, total, count =>
    if 0 < pairTd h start k ∧ pairTd h start k < 7200 ∧ 0 < pairMd h start k
    then declineGo h start rem (k + 1) (total + pairMd h start k) (count + 1)
    else if pairMd h start k < -5 then (total, count)
    else declineGo h start rem (k + 1) total count

/-- One of the two half-rate loops (they accumulate every positive
`moisture_diff` over their index window, with no time check and no
watering-event stop). -/
def halfSumGo (h : WaterHistory) (start : ℕ) : ℕ → ℕ → ℚ → ℚ
  | 0, _, acc => acc
  | rem + 1, k, acc =>
    if 0 < pairMd h start k
    then halfSumGo h start rem (k + 1) (acc + pairMd h start k)
    else halfSumGo h start rem (k + 1) acc

/-- The variance loop: accumulate the squared deviation of each positive
`moisture_diff` from the mean decline rate. -/
def varianceGo (h : WaterHistory) (start : ℕ) (rate : ℚ) :
    ℕ → ℕ → ℚ → ℚ
  | 0, _, acc => acc
  | rem + 1, k, acc =>
    if 0 < pairMd h start k
    then varianceGo h start rate rem (k + 1)
      (acc + (pairMd h start k - rate) * (pairMd h start k - rate))
    else varianceGo h start rate rem (k + 1) acc

/-- The walk result `(total_decline, count)` of the prediction. -/
def predictWalk (h : WaterHistory) : ℚ × ℕ :=
  declineGo h (startIdx h) (usableSamples h - 1) 0 0 0

/-- `hourly_decline_rate = count > 0 ? total_decline / count : 0`. -/
def hourlyDeclineRate (h : WaterHistory) : ℚ :=
  if 0 < (predictWalk h).2 then (predictWalk h).1 / (predictWalk h).2 else 0

/-- The `declining_consumption` computation: with at least 48 usable
pairs, compare the positive-diff rate of the more recent `count / 2` pair
positions (`second_half_rate`) against the remaining older positions
(`first_half_rate`). -/
def decliningFlag (h : WaterHistory) : Bool :=
  let count := (predictWalk h).2
  if 48 ≤ count then
    let halfway := count / 2
    let second_half_rate := halfSumGo h (startIdx h) halfway 0 0 / halfway
    let first_half_rate :=
      halfSumGo h (startIdx h) (count - halfway) halfway 0 / (count - halfway)
    decide (second_half_rate < first_half_rate)
  else false

/-- The confidence of a positive forecast: `data_quantity_factor ×
consistency_factor × 100`, where the consistency factor uses the standard
deviation of the positive decline diffs (`sqrtf` modelled by `Rat.sqrt`). -/
def predictConfidence (h : WaterHistory) : ℚ :=
  let count := (predictWalk h).2
  let rate := hourlyDeclineRate h
  let data_quantity_factor := min 1 ((count : ℚ) / 72)
  let variance_sum := varianceGo h (startIdx h) rate count 0 0
  let variance := if 0 < count then variance_sum / count else 0
  let stddev := Rat.sqrt variance
  let consistency_factor :=
    if 1/1000 < rate then min 1 (1 / (1 + 10 * stddev / rate)) else 0
  data_quantity_factor * consistency_factor * 100

/-- `water_analysis_predict_watering`.  `pattern_out` starts as a copy of
the stored pattern (`memcpy`), so the insufficient-data early return leaves
the stored `daily_consumption_rate`/`declining_consumption` in place and
only zeroes the forecast fields.  `k_uptime_get() / 1000` is the `now`
parameter; the C `(int64_t)` cast of the positive `hours × 3600` is a
floor. -/
def water_analysis_predict_watering (wp : WaterConsumptionPattern)
    (current_moisture moisture_threshold : ℚ) (now : ℤ) :
    WaterConsumptionPattern :=
  if wp.history.filled = false ∧ wp.history.index < 48 then
    { wp with next_watering_timestamp := 0, prediction_confidence := 0 }
  else
    let h := wp.history
    let rate := hourlyDeclineRate h
    let daily := rate * 24
    let declining := decliningFlag h
    if 1/100 < daily then
      let hours_until_threshold : ℚ :=
        if moisture_threshold < current_moisture then
          (current_moisture - moisture_threshold) / rate
        else 0
      if 0 < hours_until_threshold then
        { wp with daily_consumption_rate := daily
                  declining_consumption := declining
                  next_watering_timestamp :=
                    now + ⌊hours_until_threshold * 3600⌋
                  prediction_confidence := predictConfidence h }
      else
        { wp with daily_consumption_rate := daily
                  declining_consumption := declining
                  next_watering_timestamp := now
                  prediction_confidence := 100 }
    else
      { wp with daily_consumption_rate := daily
                declining_consumption := declining
                next_watering_timestamp := 0
                prediction_confidence := 0 }

/-- Apply `water_analysis_add_reading` for each `(moisture, timestamp)`
sample in order, oldest first. -/
def applyReadings (wp : WaterConsumptionPattern) (l : List (ℚ × ℤ)) :
    WaterConsumptionPattern :=
  l.foldl (fun w p => water_analysis_add_reading w p.1 p.2) wp

theorem applyReadings_append (wp : WaterConsumptionPattern)
    (l : List (ℚ × ℤ)) (p : ℚ × ℤ) :
    applyReadings wp (l ++ [p])
      = water_analysis_add_reading (applyReadings wp l) p.1 p.2 := by
  simp [applyReadings, List.foldl_append]

/-- State characterization of `applyReadings` from the zeroed pattern, for
at most 168 samples (no wrap-around): the cursor equals the sample count
modulo 168, `filled` exactly at 168 samples, slot `j` holds sample `j`, and
the prediction fields still hold their zeroed values. -/
theorem applyReadings_inv (l : List (ℚ × ℤ)) (hlen : l.length ≤ 168) :
    (applyReadings water_analysis_init l).history.index = l.length % 168 ∧
    (applyReadings water_analysis_init l).history.filled
      = decide (l.length = 168) ∧
    (∀ j < l.length,
      (applyReadings water_analysis_init l).history.moisture j
        = (l.getD j (0, 0)).1 ∧
      (applyReadings water_analysis_init l).history.timestamps j
        = (l.getD j (0, 0)).2) ∧
    (applyReadings water_analysis_init l).daily_consumption_rate = 0 ∧
    (applyReadings water_analysis_init l).declining_consumption = false ∧
    (applyReadings water_analysis_init l).next_watering_timestamp = 0 ∧
    (applyReadings water_analysis_init l).prediction_confidence = 0 := by
  induction l using List.reverseRecOn with
  | nil => exact ⟨rfl, rfl, fun j hj => absurd hj (by simp), rfl, rfl, rfl, rfl⟩
  | append_singleton l p ih =>
    have hlen2 : l.length ≤ 168 := by
      simp only [List.length_append, List.length_singleton] at hlen
      omega
    have hlen3 : l.length < 168 := by
      simp only [List.length_append, List.length_singleton] at hlen
      omega
    obtain ⟨ihIdx, ihFill, ihSlot, ihD, ihDec, ihN, ihC⟩ := ih hlen2
    have hmod : l.length % 168 = l.length := Nat.mod_eq_of_lt hlen3
    rw [applyReadings_append]
    have hL : (l ++ [p]).length = l.length + 1 := by simp
    refine ⟨?_, ?_, ?_, ihD, ihDec, ihN, ihC⟩
    · simp only [water_analysis_add_reading, WATER_HISTORY_SIZE, hL, ihIdx,
        hmod]
    · simp only [water_analysis_add_reading, WATER_HISTORY_SIZE, hL, ihIdx,
        hmod, ihFill]
      by_cases h : l.length + 1 = 168
      · rw [if_pos (by omega)]
        rw [decide_eq_true h]
      · rw [if_neg (by omega)]
        rw [decide_eq_false h, decide_eq_false (by omega)]
    · intro j hj
      rw [hL] at hj
      simp only [water_analysis_add_reading, ihIdx, hmod]
      by_cases hje : j = l.length
      · subst hje
        rw [Function.update_same, Function.update_same]
        rw [List.getD_append_right _ _ _ _ (by omega), Nat.sub_self]
        exact ⟨rfl, rfl⟩
      · have hjl : j < l.length := by omega
        rw [Function.update_noteq (by omega), Function.update_noteq (by omega)]
        rw [List.getD_append _ _ _ _ (by omega)]
        exact ihSlot j hjl

theorem sumVals_shift (f : ℕ → ℚ) (n : ℕ) :
    sumVals f (n + 1) = f 0 + sumVals (fun k => f (k + 1)) n := by
  induction n with
  | zero =>
    rw [sumVals, sumVals, sumVals]
    ring
  | succ n ih =>
    rw [sumVals, ih, sumVals]
    ring

theorem sumVals_congr (f g : ℕ → ℚ) (n : ℕ) (h : ∀ k < n, f k = g k) :
    sumVals f n = sumVals g n := by
  induction n with
  | zero => rfl
  | succ n ih =>
    rw [sumVals, sumVals, ih (fun k hk => h k (by omega)), h n (by omega)]

theorem sumVals_const (c : ℚ) (n : ℕ) : sumVals (fun _ => c) n = n * c := by
  induction n with
  | zero => simp [sumVals]
  | succ n ih =>
    rw [sumVals, ih]
    push_cast
    ring

/-- If every pair in the window is usable, the walk accumulates every
`moisture_diff` and counts every pair. -/
theorem declineGo_all_usable (h : WaterHistory) (start : ℕ) :
    ∀ rem k total count,
      (∀ j < rem, 0 < pairTd h start (k + j) ∧ pairTd h start (k + j) < 7200 ∧
        0 < pairMd h start (k + j)) →
      declineGo h start rem k total count
        = (total + sumVals (fun j => pairMd h start (k + j)) rem,
           count + rem) := by
  intro rem
  induction rem with
  | zero =>
    intro k total count _
    simp [declineGo, sumVals]
  | succ rem ih =>
    intro k total count hu
    have h0 := hu 0 (by omega)
    simp only [Nat.add_zero] at h0
    rw [declineGo, if_pos h0]
    have hfu : (fun j => pairMd h start (k + (j + 1)))
        = fun j => pairMd h start (k + 1 + j) := by
      funext j
      congr 1
      omega
    rw [ih (k + 1) _ _ (fun j hj => by
      have := hu (j + 1) (by omega)
      have harg : k + (j + 1) = k + 1 + j := by omega
      rwa [harg] at this)]
    rw [sumVals_shift, hfu]
    simp only [Nat.add_zero, Prod.mk.injEq]
    constructor
    · ring
    · omega

/-- The walk stops at the first pair whose `moisture_diff` is below `-5`:
its result is that of running only the iterations before that pair. -/
theorem declineGo_stop (h : WaterHistory) (start : ℕ) :
    ∀ j rem k total count, j < rem →
      (∀ m < j, ¬(pairMd h start (k + m) < -5)) →
      pairMd h start (k + j) < -5 →
      declineGo h start rem k total count
        = declineGo h start j k total count := by
  intro j
  induction j with
  | zero =>
    intro rem k total count hjr _ hj
    obtain ⟨rem2, rfl⟩ : ∃ r2, rem = r2 + 1 := ⟨rem - 1, by omega⟩
    simp only [Nat.add_zero] at hj
    have hnu : ¬(0 < pairTd h start k ∧ pairTd h start k < 7200 ∧
        0 < pairMd h start k) := by
      intro hc
      have := hc.2.2
      linarith
    simp only [declineGo]
    rw [if_neg hnu, if_pos hj]
  | succ j ih =>
    intro rem k total count hjr hpre hj
    obtain ⟨rem2, rfl⟩ : ∃ r2, rem = r2 + 1 := ⟨rem - 1, by omega⟩
    have hm0 := hpre 0 (by omega)
    simp only [Nat.add_zero] at hm0
    have hpre2 : ∀ m < j, ¬(pairMd h start (k + 1 + m) < -5) := by
      intro m hm
      have := hpre (m + 1) (by omega)
      have harg : k + (m + 1) = k + 1 + m := by omega
      rwa [harg] at this
    have hj2 : pairMd h start (k + 1 + j) < -5 := by
      have harg : k + (j + 1) = k + 1 + j := by omega
      rwa [harg] at hj
    simp only [declineGo]
    by_cases hu : 0 < pairTd h start k ∧ pairTd h start k < 7200 ∧
        0 < pairMd h start k
    · rw [if_pos hu, if_pos hu]
      exact ih rem2 (k + 1) _ _ (by omega) hpre2 hj2
    · rw [if_neg hu, if_neg hu, if_neg hm0, if_neg hm0]
      exact ih rem2 (k + 1) _ _ (by omega) hpre2 hj2

/-- The walk counts at most one pair per iteration. -/
theorem declineGo_count_le (h : WaterHistory) (start : ℕ) :
    ∀ rem k total count,
      (declineGo h start rem k total count).2 ≤ count + rem := by
  intro rem
  induction rem with
  | zero =>
    intro k total count
    simp [declineGo]
  | succ rem ih =>
    intro k total count
    rw [declineGo]
    by_cases hu : 0 < pairTd h start k ∧ pairTd h start k < 7200 ∧
        0 < pairMd h start k
    · rw [if_pos hu]
      have := ih (k + 1) (total + pairMd h start k) (count + 1)
      omega
    · rw [if_neg hu]
      by_cases hb : pairMd h start k < -5
      · rw [if_pos hb]
        show count ≤ count + (rem + 1)
        omega
      · rw [if_neg hb]
        have := ih (k + 1) total count
        omega

/-- The half-rate loop accumulates exactly the positive diffs over its
window. -/
theorem halfSumGo_eq (h : WaterHistory) (start : ℕ) :
    ∀ rem k acc, halfSumGo h start rem k acc
      = acc + sumVals (fun j => if 0 < pairMd h start (k + j)
          then pairMd h start (k + j) else 0) rem := by
  intro rem
  induction rem with
  | zero =>
    intro k acc
    simp [halfSumGo, sumVals]
  | succ rem ih =>
    intro k acc
    have hfu : (fun j => if 0 < pairMd h start (k + (j + 1))
          then pairMd h start (k + (j + 1)) else 0)
        = fun j => if 0 < pairMd h start (k + 1 + j)
          then pairMd h start (k + 1 + j) else 0 := by
      funext j
      have harg : k + (j + 1) = k + 1 + j := by omega
      rw [harg]
    rw [halfSumGo, sumVals_shift, hfu]
    simp only [Nat.add_zero]
    by_cases hp : 0 < pairMd h start k
    · rw [if_pos hp, if_pos hp, ih]
      ring
    · rw [if_neg hp, if_neg hp, ih]
      ring

/-- The variance loop accumulates exactly the squared deviations of the
positive diffs over its window. -/
theorem varianceGo_eq (h : WaterHistory) (start : ℕ) (rate : ℚ) :
    ∀ rem k acc, varianceGo h start rate rem k acc
      = acc + sumVals (fun j => if 0 < pairMd h start (k + j)
          then (pairMd h start (k + j) - rate) * (pairMd h start (k + j) - rate)
          else 0) rem := by
  intro rem
  induction rem with
  | zero =>
    intro k acc
    simp [varianceGo, sumVals]
  | succ rem ih =>
    intro k acc
    have hfu : (fun j => if 0 < pairMd h start (k + (j + 1))
          then (pairMd h start (k + (j + 1)) - rate) *
            (pairMd h start (k + (j + 1)) - rate) else 0)
        = fun j => if 0 < pairMd h start (k + 1 + j)
          then (pairMd h start (k + 1 + j) - rate) *
            (pairMd h start (k + 1 + j) - rate) else 0 := by
      funext j
      have harg : k + (j + 1) = k + 1 + j := by omega
      rw [harg]
    rw [varianceGo, sumVals_shift, hfu]
    simp only [Nat.add_zero]
    by_cases hp : 0 < pairMd h start k
    · rw [if_pos hp, if_pos hp, ih]
      ring
    · rw [if_neg hp, if_neg hp, ih]
      ring

/-- Field extraction for `water_analysis_predict_watering` past the
insufficient-data early return. -/
theorem predict_fields (wp : WaterConsumptionPattern) (cm th : ℚ) (now : ℤ)
    (hne : ¬(wp.history.filled = false ∧ wp.history.index < 48)) :
    (water_analysis_predict_watering wp cm th now).daily_consumption_rate
      = hourlyDeclineRate wp.history * 24 ∧
    (water_analysis_predict_watering wp cm th now).declining_consumption
      = decliningFlag wp.history ∧
    (1/100 < hourlyDeclineRate wp.history * 24 → th < cm →
      0 < (cm - th) / hourlyDeclineRate wp.history →
      (water_analysis_predict_watering wp cm th now).prediction_confidence
        = predictConfidence wp.history) ∧
    (1/100 < hourlyDeclineRate wp.history * 24 → ¬(th < cm) →
      (water_analysis_predict_watering wp cm th now).prediction_confidence
        = 100) := by
  refine ⟨?_, ?_, ?_, ?_⟩
  · simp only [water_analysis_predict_watering, if_neg hne]
    repeat' split
    all_goals rfl
  · simp only [water_analysis_predict_watering, if_neg hne]
    repeat' split
    all_goals rfl
  · intro h1 h2 h3
    simp only [water_analysis_predict_watering, if_neg hne, if_pos h1,
      if_pos h2, if_pos h3]
  · intro h1 h2
    simp only [water_analysis_predict_watering, if_neg hne, if_pos h1,
      if_neg h2]
    rw [if_neg (by norm_num)]

/-- A canonical monotone-decline history: `n` samples one hour apart,
losing 1% moisture per hour. -/
def declList (m0 : ℚ) (n : ℕ) : List (ℚ × ℤ) :=
  (List.range n).map fun (k : ℕ) => (m0 - k, 3600 * (k : ℤ))

theorem declList_length (m0 : ℚ) (n : ℕ) : (declList m0 n).length = n := by
  simp [declList]

theorem declList_getD (m0 : ℚ) (n j : ℕ) (hj : j < n) :
    (declList m0 n).getD j (0, 0) = (m0 - j, 3600 * (j : ℤ)) := by
  rw [List.getD_eq_getElem _ _ (by rw [declList_length]; exact hj)]
  simp [declList]

/-- The pair geometry of the backward walk on an unwrapped history of `n`
samples: iteration `k` compares slots `n - 1 - k` and `n - 2 - k`. -/
theorem pair_idx (n k : ℕ) (h2 : 2 ≤ n) (h168 : n ≤ 168) (hk : k < n - 1) :
    pairCur (n - 1) k = n - 1 - k ∧ pairPrev (n - 1) k = n - 2 - k := by
  have hc : pairCur (n - 1) k = n - 1 - k := by
    simp only [pairCur, WATER_HISTORY_SIZE]
    omega
  refine ⟨hc, ?_⟩
  simp only [pairPrev, hc, WATER_HISTORY_SIZE]
  omega

/-- On the state built from `declList`, every walk pair has
`time_diff = 3600` and `moisture_diff = 1`. -/
theorem declState_pair (m0 : ℚ) (n : ℕ) (h2 : 48 ≤ n) (h168 : n ≤ 168)
    (k : ℕ) (hk : k < n - 1) :
    pairTd (applyReadings water_analysis_init (declList m0 n)).history
        (n - 1) k = 3600 ∧
    pairMd (applyReadings water_analysis_init (declList m0 n)).history
        (n - 1) k = 1 := by
  obtain ⟨hidx, hprev⟩ := pair_idx n k (by omega) h168 hk
  obtain ⟨_, _, hslot, _⟩ :=
    applyReadings_inv (declList m0 n) (by rw [declList_length]; omega)
  rw [declList_length] at hslot
  have hm1 := hslot (n - 1 - k) (by omega)
  have hm2 := hslot (n - 2 - k) (by omega)
  rw [declList_getD m0 n _ (by omega)] at hm1 hm2
  have he : n - 1 - k = (n - 2 - k) + 1 := by omega
  constructor
  · rw [pairTd, hidx, hprev, hm1.2, hm2.2, he]
    push_cast
    ring
  · rw [pairMd, hidx, hprev, hm1.1, hm2.1, he]
    push_cast
    ring

/-- Common facts about the state built from `n ≤ 168` samples: the walk
window size and starting slot. -/
theorem applyReadings_walk_geom (l : List (ℚ × ℤ)) (h1 : 1 ≤ l.length)
    (h168 : l.length ≤ 168) :
    usableSamples (applyReadings water_analysis_init l).history = l.length ∧
    startIdx (applyReadings water_analysis_init l).history = l.length - 1 := by
  obtain ⟨hidx, hfill, _⟩ := applyReadings_inv l h168
  constructor
  · rw [usableSamples, hidx, hfill]
    by_cases h : l.length = 168
    · rw [decide_eq_true h, if_pos rfl, WATER_HISTORY_SIZE, h]
    · rw [decide_eq_false h]
      simp only [Bool.false_eq_true, if_false]
      omega
  · rw [startIdx, hidx, WATER_HISTORY_SIZE]
    omega

/-- C3: with fewer than 48 stored samples (2 days), predict returns the
zero-confidence, no-forecast result; with 48 or more (and at most the
168-slot capacity) monotonically declining samples at 1%/hour it returns
`daily_consumption_rate = 24` %/day and a strictly positive confidence. -/
theorem claim_C3_insufficient_data (l : List (ℚ × ℤ)) (m0 cm th : ℚ)
    (n : ℕ) (now : ℤ) :
    (l.length < 48 →
      (water_analysis_predict_watering (applyReadings water_analysis_init l)
          cm th now).prediction_confidence = 0 ∧
      (water_analysis_predict_watering (applyReadings water_analysis_init l)
          cm th now).next_watering_timestamp = 0) ∧
    (48 ≤ n → n ≤ 168 →
      (water_analysis_predict_watering
          (applyReadings water_analysis_init (declList m0 n))
          cm th now).daily_consumption_rate = 24 ∧
      0 < (water_analysis_predict_watering
          (applyReadings water_analysis_init (declList m0 n))
          cm th now).prediction_confidence) := by
  constructor
  · intro hlen
    obtain ⟨hidx, hfill, _⟩ := applyReadings_inv l (by omega)
    have hc : (applyReadings water_analysis_init l).history.filled = false ∧
        (applyReadings water_analysis_init l).history.index < 48 := by
      constructor
      · rw [hfill]
        exact decide_eq_false (by omega)
      · rw [hidx]
        omega
    rw [water_analysis_predict_watering, if_pos hc]
    exact ⟨rfl, rfl⟩
  · intro hn h168
    set st := applyReadings water_analysis_init (declList m0 n) with hst
    obtain ⟨hidx, hfill, _⟩ :=
      applyReadings_inv (declList m0 n) (by rw [declList_length]; omega)
    rw [declList_length] at hidx hfill
    have hne : ¬(st.history.filled = false ∧ st.history.index < 48) := by
      rw [hst, hidx, hfill]
      intro hc
      by_cases h : n = 168
      · rw [decide_eq_true h] at hc
        exact absurd hc.1 (by simp)
      · rw [Nat.mod_eq_of_lt (by omega)] at hc
        omega
    obtain ⟨husable, hstart⟩ := applyReadings_walk_geom (declList m0 n)
      (by rw [declList_length]; omega) (by rw [declList_length]; omega)
    rw [declList_length] at husable hstart
    rw [← hst] at husable hstart
    have hwalk : predictWalk st.history = (((n - 1 : ℕ) : ℚ), n - 1) := by
      rw [predictWalk, husable, hstart]
      rw [declineGo_all_usable st.history (n - 1) (n - 1) 0 0 0
        (fun j hj => by
          have := declState_pair m0 n hn h168 j (by omega)
          rw [← hst] at this
          rw [Nat.zero_add]
          rw [this.1, this.2]
          norm_num)]
      have hcongr : sumVals (fun j => pairMd st.history (n - 1) (0 + j)) (n - 1)
          = sumVals (fun _ => (1 : ℚ)) (n - 1) := by
        apply sumVals_congr
        intro k hk
        rw [Nat.zero_add]
        have := declState_pair m0 n hn h168 k (by omega)
        rw [← hst] at this
        exact this.2
      rw [hcongr, sumVals_const]
      norm_num
    have hcount : (predictWalk st.history).2 = n - 1 := by rw [hwalk]
    have hrate : hourlyDeclineRate st.history = 1 := by
      rw [hourlyDeclineRate, hwalk]
      simp only []
      rw [if_pos (by omega)]
      rw [div_self (by
        have : (0 : ℚ) < ((n - 1 : ℕ) : ℚ) := by
          exact_mod_cast Nat.pos_of_ne_zero (by omega)
        exact ne_of_gt this)]
    obtain ⟨hdaily, hdecl, hconfA, hconfB⟩ := predict_fields st cm th now hne
    constructor
    · rw [hdaily, hrate]
      norm_num
    · by_cases hcm : th < cm
      · rw [hconfA (by rw [hrate]; norm_num) hcm
          (by rw [hrate, div_one]; linarith)]
        simp only [predictConfidence]
        rw [hrate, hcount]
        have hvar : varianceGo st.history (startIdx st.history) 1 (n - 1) 0 0
            = 0 := by
          rw [varianceGo_eq, hstart]
          have : sumVals (fun j =>
              if 0 < pairMd st.history (n - 1) (0 + j)
              then (pairMd st.history (n - 1) (0 + j) - 1) *
                (pairMd st.history (n - 1) (0 + j) - 1) else 0) (n - 1)
              = sumVals (fun _ => (0 : ℚ)) (n - 1) := by
            apply sumVals_congr
            intro k hk
            rw [Nat.zero_add]
            have := declState_pair m0 n hn h168 k (by omega)
            rw [← hst] at this
            rw [this.2]
            norm_num
          rw [this, sumVals_const]
          ring
        rw [hstart]
        rw [hstart] at hvar
        rw [hvar]
        rw [if_pos (show 0 < n - 1 by omega)]
        have hz : (0 : ℚ) / ((n - 1 : ℕ) : ℚ) = 0 := by simp
        rw [hz]
        have hsq : Rat.sqrt 0 = 0 := by decide
        rw [hsq]
        rw [if_pos (by norm_num)]
        have hcons : min (1 : ℚ) (1 / (1 + 10 * 0 / 1)) = 1 := by norm_num
        rw [hcons]
        have hq2 : (0 : ℚ) < ((n - 1 : ℕ) : ℚ) := by
          exact_mod_cast Nat.pos_of_ne_zero (by omega)
        have hq : (0 : ℚ) < min 1 (((n - 1 : ℕ) : ℚ) / 72) :=
          lt_min (by norm_num) (div_pos hq2 (by norm_num))
        nlinarith [hq]
      · rw [hconfB (by rw [hrate]; norm_num) hcm]
        norm_num

/-- Witness for C3: 47 samples give confidence 0 and no forecast; 72
monotone samples at 1%/hour give a 24%/day rate with positive
confidence. -/
theorem claim_C3_witness :
    (declList 100 47).length < 48 ∧
    (water_analysis_predict_watering
        (applyReadings water_analysis_init (declList 100 47))
        80 30 0).prediction_confidence = 0 ∧
    (water_analysis_predict_watering
        (applyReadings water_analysis_init (declList 100 47))
        80 30 0).next_watering_timestamp = 0 ∧
    (water_analysis_predict_watering
        (applyReadings water_analysis_init (declList 110 72))
        39 30 0).daily_consumption_rate = 24 ∧
    0 < (water_analysis_predict_watering
        (applyReadings water_analysis_init (declList 110 72))
        39 30 0).prediction_confidence := by
  have h1 := (claim_C3_insufficient_data (declList 100 47) 110 80 30 72 0).1
    (by decide)
  have h2 := (claim_C3_insufficient_data (declList 100 47) 110 39 30 72 0).2
    (by norm_num) (by norm_num)
  exact ⟨by decide, h1.1, h1.2, h2.1, h2.2⟩

/-- C4 (amended): a pair with `moisture_diff < -5` means the newer sample
exceeds the older by more than 5 points — an abrupt rise, i.e. a watering
event; the first such pair stops the backward walk immediately, so only
pairs more recent than the event contribute to the decline accumulators;
with those more-recent pairs all usable the walk returns exactly their
diff sum and count. -/
theorem claim_C4_watering_event (h : WaterHistory) (start j rem : ℕ)
    (hjr : j < rem)
    (hpre : ∀ m < j, ¬(pairMd h start m < -5))
    (hj : pairMd h start j < -5) :
    declineGo h start rem 0 0 0 = declineGo h start j 0 0 0 ∧
    ((∀ m < j, 0 < pairTd h start m ∧ pairTd h start m < 7200 ∧
        0 < pairMd h start m) →
      declineGo h start rem 0 0 0
        = (sumVals (fun m => pairMd h start m) j, j)) := by
  have hstop := declineGo_stop h start j rem 0 0 0 hjr
    (fun m hm => by simpa using hpre m hm) (by simpa using hj)
  refine ⟨hstop, fun hu => ?_⟩
  rw [hstop]
  rw [declineGo_all_usable h start j 0 0 0 (fun m hm => by simpa using hu m hm)]
  have hcongr : sumVals (fun m => pairMd h start (0 + m)) j
      = sumVals (fun m => pairMd h start m) j := by
    apply sumVals_congr
    intro k _
    rw [Nat.zero_add]
  rw [hcongr]
  simp

/-- The C4 claim's 6-sample history [50,49,48,20,19,18], one hour apart. -/
def c4list : List (ℚ × ℤ) :=
  [(50, 0), (49, 3600), (48, 7200), (20, 10800), (19, 14400), (18, 18000)]

/-- C4 counterexample: in the history [50,49,48,20,19,18] the 48 → 20 pair
has `moisture_diff = +28` (a steep *decline*, not a rise below −5), so the
walk would not stop there but count it: over those pairs the walk yields
`(32, 5)`, a mean decline of 6.4, not one computed only over [20,19,18];
moreover with only 6 samples predict takes the insufficient-data return, so
its daily rate is the stored 0, not 24. -/
theorem claim_C4_counterexample :
    pairMd (applyReadings water_analysis_init c4list).history
      (startIdx (applyReadings water_analysis_init c4list).history) 2 = 28 ∧
    ¬(pairMd (applyReadings water_analysis_init c4list).history
      (startIdx (applyReadings water_analysis_init c4list).history) 2 < -5) ∧
    declineGo (applyReadings water_analysis_init c4list).history
      (startIdx (applyReadings water_analysis_init c4list).history)
      (usableSamples (applyReadings water_analysis_init c4list).history - 1)
      0 0 0 = (32, 5) ∧
    (water_analysis_predict_watering (applyReadings water_analysis_init c4list)
      18 30 0).daily_consumption_rate = 0 ∧
    (water_analysis_predict_watering (applyReadings water_analysis_init c4list)
      18 30 0).prediction_confidence = 0 ∧
    (water_analysis_predict_watering (applyReadings water_analysis_init c4list)
      18 30 0).daily_consumption_rate ≠ 24 := by
  exact ⟨by decide, by decide, by decide, by decide, by decide, by decide⟩

/-- A 71-sample history declining 1%/hour from 81 down to 14, followed by
a +6 moisture jump (a watering event) and two more declining samples
[20, 19, 18]. -/
def c4wlist : List (ℚ × ℤ) :=
  ((List.range 68).map fun (t : ℕ) => ((81 : ℚ) - t, 3600 * (t : ℤ))) ++
    [(20, 244800), (19, 248400), (18, 252000)]

/-- Witness for C4 (amended): on `c4wlist` the walk stops at the third
pair back (the 14 → 20 rise), accumulating only the two more-recent pairs
(sum 2, count 2), and predict's daily rate is 24%/day — computed only from
[20, 19, 18]. -/
theorem claim_C4_witness :
    (∀ m < 2, ¬(pairMd (applyReadings water_analysis_init c4wlist).history
      (startIdx (applyReadings water_analysis_init c4wlist).history) m < -5)) ∧
    pairMd (applyReadings water_analysis_init c4wlist).history
      (startIdx (applyReadings water_analysis_init c4wlist).history) 2 < -5 ∧
    declineGo (applyReadings water_analysis_init c4wlist).history
      (startIdx (applyReadings water_analysis_init c4wlist).history)
      (usableSamples (applyReadings water_analysis_init c4wlist).history - 1)
      0 0 0
      = (sumVals (fun m => pairMd
          (applyReadings water_analysis_init c4wlist).history
          (startIdx (applyReadings water_analysis_init c4wlist).history) m)
          2, 2) ∧
    (water_analysis_predict_watering
      (applyReadings water_analysis_init c4wlist)
      18 30 0).daily_consumption_rate = 24 := by
  have h := (claim_C4_watering_event
      (applyReadings water_analysis_init c4wlist).history
      (startIdx (applyReadings water_analysis_init c4wlist).history) 2
      (usableSamples (applyReadings water_analysis_init c4wlist).history - 1)
      (by decide) (by decide) (by decide)).2 (by decide)
  exact ⟨by decide, by decide, h, by decide⟩

/-- On an unwrapped history, walk pair `k` compares the stored samples at
positions `length - 1 - k` (newer) and `length - 2 - k` (older). -/
theorem applyReadings_pair (l : List (ℚ × ℤ)) (h168 : l.length ≤ 168)
    (k : ℕ) (hk : k < l.length - 1) :
    pairTd (applyReadings water_analysis_init l).history (l.length - 1) k
      = (l.getD (l.length - 1 - k) (0, 0)).2
        - (l.getD (l.length - 2 - k) (0, 0)).2 ∧
    pairMd (applyReadings water_analysis_init l).history (l.length - 1) k
      = (l.getD (l.length - 2 - k) (0, 0)).1
        - (l.getD (l.length - 1 - k) (0, 0)).1 := by
  have h2 : 2 ≤ l.length := by omega
  obtain ⟨hc, hp⟩ := pair_idx l.length k h2 h168 hk
  obtain ⟨_, _, hslot, _⟩ := applyReadings_inv l h168
  have hm1 := hslot (l.length - 1 - k) (by omega)
  have hm2 := hslot (l.length - 2 - k) (by omega)
  constructor
  · rw [pairTd, hc, hp, hm1.2, hm2.2]
  · rw [pairMd, hc, hp, hm2.1, hm1.1]

/-- With at least 48 stored samples the insufficient-data early return is
not taken. -/
theorem applyReadings_not_early (l : List (ℚ × ℤ)) (h48 : 48 ≤ l.length)
    (h168 : l.length ≤ 168) :
    ¬((applyReadings water_analysis_init l).history.filled = false ∧
      (applyReadings water_analysis_init l).history.index < 48) := by
  obtain ⟨hidx, hfill, _⟩ := applyReadings_inv l h168
  intro hc
  by_cases h : l.length = 168
  · rw [hfill, decide_eq_true h] at hc
    exact absurd hc.1 (by simp)
  · rw [hidx, Nat.mod_eq_of_lt (by omega)] at hc
    omega

/-- C5: with every stored pair usable, at least 49 samples (hence at least
48 usable pairs) make `declining_consumption` the comparison "mean decline
of the newest `count / 2` pairs < mean decline of the remaining older
pairs"; with at most 48 samples (fewer than 48 usable pairs)
`declining_consumption` is false. -/
theorem claim_C5_half_split (l : List (ℚ × ℤ)) (cm th : ℚ) (now : ℤ)
    (h168 : l.length ≤ 168)
    (hu : ∀ j < l.length - 1,
      0 < (l.getD (j + 1) (0, 0)).2 - (l.getD j (0, 0)).2 ∧
      (l.getD (j + 1) (0, 0)).2 - (l.getD j (0, 0)).2 < 7200 ∧
      0 < (l.getD j (0, 0)).1 - (l.getD (j + 1) (0, 0)).1) :
    (l.length ≤ 48 →
      (water_analysis_predict_watering (applyReadings water_analysis_init l)
          cm th now).declining_consumption = false) ∧
    (49 ≤ l.length →
      (water_analysis_predict_watering (applyReadings water_analysis_init l)
          cm th now).declining_consumption
        = decide
            (sumVals (fun k => (l.getD (l.length - 2 - k) (0, 0)).1
                - (l.getD (l.length - 1 - k) (0, 0)).1) ((l.length - 1) / 2)
              / (((l.length - 1) / 2 : ℕ) : ℚ)
            < sumVals (fun k =>
                (l.getD (l.length - 2 - ((l.length - 1) / 2 + k)) (0, 0)).1
                - (l.getD (l.length - 1 - ((l.length - 1) / 2 + k)) (0, 0)).1)
                ((l.length - 1) - (l.length - 1) / 2)
              / ((((l.length - 1) - (l.length - 1) / 2 : ℕ)) : ℚ))) := by
  constructor
  · intro h48
    by_cases hlt : l.length < 48
    · obtain ⟨hidx, hfill, _, _, hdecl0, _⟩ := applyReadings_inv l (by omega)
      have hc : (applyReadings water_analysis_init l).history.filled = false ∧
          (applyReadings water_analysis_init l).history.index < 48 := by
        constructor
        · rw [hfill]
          exact decide_eq_false (by omega)
        · rw [hidx]
          omega
      rw [water_analysis_predict_watering, if_pos hc]
      exact hdecl0
    · have hlen48 : l.length = 48 := by omega
      have hne := applyReadings_not_early l (by omega) (by omega)
      obtain ⟨_, hdecl, _, _⟩ :=
        predict_fields (applyReadings water_analysis_init l) cm th now hne
      rw [hdecl]
      obtain ⟨husable, hstart⟩ := applyReadings_walk_geom l (by omega)
        (by omega)
      have hcle := declineGo_count_le
        (applyReadings water_analysis_init l).history
        (startIdx (applyReadings water_analysis_init l).history)
        (usableSamples (applyReadings water_analysis_init l).history - 1) 0 0 0
      have hcond : ¬(48 ≤ (declineGo
          (applyReadings water_analysis_init l).history
          (startIdx (applyReadings water_analysis_init l).history)
          (usableSamples (applyReadings water_analysis_init l).history - 1)
          0 0 0).2) := by
        rw [husable, hlen48] at hcle ⊢
        omega
      simp only [decliningFlag, predictWalk]
      rw [if_neg hcond]
  · intro h49
    have hne := applyReadings_not_early l (by omega) h168
    obtain ⟨_, hdecl, _, _⟩ :=
      predict_fields (applyReadings water_analysis_init l) cm th now hne
    rw [hdecl]
    obtain ⟨husable, hstart⟩ := applyReadings_walk_geom l (by omega) h168
    have hup : ∀ k < l.length - 1,
        0 < pairTd (applyReadings water_analysis_init l).history
          (l.length - 1) k ∧
        pairTd (applyReadings water_analysis_init l).history
          (l.length - 1) k < 7200 ∧
        0 < pairMd (applyReadings water_analysis_init l).history
          (l.length - 1) k := by
      intro k hk
      obtain ⟨htd, hmd⟩ := applyReadings_pair l h168 k hk
      have hj := hu (l.length - 2 - k) (by omega)
      have hj1 : l.length - 2 - k + 1 = l.length - 1 - k := by omega
      rw [hj1] at hj
      rw [htd, hmd]
      exact ⟨hj.1, hj.2.1, hj.2.2⟩
    have hwalk := declineGo_all_usable
      (applyReadings water_analysis_init l).history (l.length - 1)
      (l.length - 1) 0 0 0 (fun j hj => by simpa using hup j (by omega))
    have hcount2 : (predictWalk
        (applyReadings water_analysis_init l).history).2 = l.length - 1 := by
      rw [predictWalk, husable, hstart, hwalk]
      simp
    simp only [decliningFlag]
    rw [hcount2, if_pos (show 48 ≤ l.length - 1 by omega), hstart]
    rw [halfSumGo_eq, halfSumGo_eq]
    have hsecond : sumVals (fun j =>
        if 0 < pairMd (applyReadings water_analysis_init l).history
          (l.length - 1) (0 + j)
        then pairMd (applyReadings water_analysis_init l).history
          (l.length - 1) (0 + j) else 0) ((l.length - 1) / 2)
        = sumVals (fun k => (l.getD (l.length - 2 - k) (0, 0)).1
            - (l.getD (l.length - 1 - k) (0, 0)).1) ((l.length - 1) / 2) := by
      apply sumVals_congr
      intro k hk
      rw [Nat.zero_add]
      have hkr : k < l.length - 1 := by omega
      rw [if_pos (hup k hkr).2.2]
      exact (applyReadings_pair l h168 k hkr).2
    have hfirst : sumVals (fun j =>
        if 0 < pairMd (applyReadings water_analysis_init l).history
          (l.length - 1) ((l.length - 1) / 2 + j)
        then pairMd (applyReadings water_analysis_init l).history
          (l.length - 1) ((l.length - 1) / 2 + j) else 0)
        ((l.length - 1) - (l.length - 1) / 2)
        = sumVals (fun k =>
            (l.getD (l.length - 2 - ((l.length - 1) / 2 + k)) (0, 0)).1
            - (l.getD (l.length - 1 - ((l.length - 1) / 2 + k)) (0, 0)).1)
            ((l.length - 1) - (l.length - 1) / 2) := by
      apply sumVals_congr
      intro k hk
      have hkr : (l.length - 1) / 2 + k < l.length - 1 := by omega
      rw [if_pos (hup _ hkr).2.2]
      exact (applyReadings_pair l h168 _ hkr).2
    rw [hsecond, hfirst]
    simp only [zero_add]
    have hcast : ((l.length - 1 : ℕ) : ℚ) - (((l.length - 1) / 2 : ℕ) : ℚ)
        = ((l.length - 1 - (l.length - 1) / 2 : ℕ) : ℚ) :=
      (Nat.cast_sub (by omega)).symm
    rw [hcast]

/-- 50 samples with older pairs declining at 2%/hour and the newest 24
pairs at 1%/hour. -/
def c5list : List (ℚ × ℤ) :=
  (List.range 50).map fun (t : ℕ) =>
    (if t ≤ 25 then (100 : ℚ) - 2 * t else 75 - t, 3600 * (t : ℤ))

/-- Witness for C5: on `c5list` the more recent half declines slower
(mean 1 < mean 2) so `declining_consumption` is true; on 40 monotone
samples (fewer than 48 usable pairs) it is false. -/
theorem claim_C5_witness :
    (water_analysis_predict_watering (applyReadings water_analysis_init
      c5list) 26 30 0).declining_consumption = true ∧
    (water_analysis_predict_watering (applyReadings water_analysis_init
      (declList 100 40)) 26 30 0).declining_consumption = false := by
  have h1 := (claim_C5_half_split c5list 26 30 0 (by decide) (by decide)).2
    (by decide)
  have h2 := (claim_C5_half_split (declList 100 40) 26 30 0 (by decide)
    (by decide)).1 (by decide)
  constructor
  · rw [h1]
    decide
  · exact h2

end Grow
